import Mathlib

/-!
Verification development for the codigo_facilito_downloader repository.

The Python source is shallowly embedded: pure helpers from
`src/facilito/helpers.py` become Lean functions over `List Char` / `String`;
DOM element handles are flattened into records that carry the answers to the
exact queries the code performs; fallible code returns `Except PyErr`.
Python exceptions (`ValueError` from `int()`, `IndexError` from `title[0]`,
`AttributeError` from a missing module attribute, `TypeError` from
`str + None`) are modelled as `PyErr` values.

Modelling notes, stated once here:
 * Python `str.strip` / regex `\s` strip Unicode whitespace; the model uses
   the ASCII whitespace set, which is exhaustive for every character class
   the repository's regexes and titles actually exercise.
 * Python `str.upper` on the first character is modelled as the ASCII
   case map (identity on non-ASCII); `\w` (word characters, used for the
   regex `\b` boundary) is modelled as ASCII alphanumerics plus underscore.
 * Python `int(s)` accepts an optionally signed run of digits surrounded by
   whitespace and raises `ValueError` otherwise; digit-group underscores
   are not modelled.
-/

namespace Facilito

/-- Python exception values that the embedded code can raise. -/
inductive PyErr where
  | valueError : String → PyErr
  | indexError : PyErr
  | attributeError : String → PyErr
  | typeError : PyErr
  | urlError : String → PyErr
  | videoError : String → PyErr
  | courseError : String → PyErr
  | bootcampError : String → PyErr
  deriving DecidableEq, Repr

/-- Decidable equality of embedded results, so that concrete evaluations
can be settled by `decide`. -/
instance {α β : Type} [DecidableEq α] [DecidableEq β] : DecidableEq (Except α β)
  | .error a, .error b =>
    if h : a = b then .isTrue (h ▸ rfl)
    else .isFalse (fun he => h (Except.error.inj he))
  | .error _, .ok _ => .isFalse (fun he => Except.noConfusion he)
  | .ok _, .error _ => .isFalse (fun he => Except.noConfusion he)
  | .ok a, .ok b =>
    if h : a = b then .isTrue (h ▸ rfl)
    else .isFalse (fun he => h (Except.ok.inj he))

/-! ## Character classes -/

/-- ASCII whitespace, the characters stripped by Python `str.strip()`. -/
def isPySpace (c : Char) : Bool :=
  c = ' ' || c = '\t' || c = '\n' || c = '\r' || c = '\x0b' || c = '\x0c'

/-- The character class of `consts.SYMBOLS_NAME`, the fixed markup-symbol
set removed by `clean_string`:
`[<>.:;'"/\|?!` plus inverted punctuation, ordinal signs, `%&~*+=@#$` and
all four bracket kinds. -/
def isSymbolChar (c : Char) : Bool :=
  c ∈ ['<', '>', '.', ':', ';', '\x27', '"', '/', '\\', '|', '?', '!',
       '¡', '¿', 'º', '%', '&', '~', 'ª', '*', '+', '=', '@', '#', '$',
       '[', ']', '\x7b', '\x7d', '(', ')']

/-- Word characters for the regex `\b` boundary (ASCII model of `\w`). -/
def isWordChar (c : Char) : Bool :=
  c.isAlphanum || c = '_'

/-- A character that survives `clean_title`: not a newline and not in the
markup symbol set. -/
def isCleanChar (c : Char) : Bool :=
  c ≠ '\n' && !isSymbolChar c

/-- The ASCII lower/upper case table. -/
def upperPairs : List (Char × Char) :=
  [('a', 'A'), ('b', 'B'), ('c', 'C'), ('d', 'D'), ('e', 'E'), ('f', 'F'),
   ('g', 'G'), ('h', 'H'), ('i', 'I'), ('j', 'J'), ('k', 'K'), ('l', 'L'),
   ('m', 'M'), ('n', 'N'), ('o', 'O'), ('p', 'P'), ('q', 'Q'), ('r', 'R'),
   ('s', 'S'), ('t', 'T'), ('u', 'U'), ('v', 'V'), ('w', 'W'), ('x', 'X'),
   ('y', 'Y'), ('z', 'Z')]

/-- ASCII upper-case map, the model of Python `str.upper()` applied to the
first character by `clean_title` (identity outside `a`-`z`). -/
def asciiUpper (c : Char) : Char :=
  ((upperPairs.find? (fun p => p.1 == c)).map Prod.snd).getD c

/-- Case folding for the `(?i)` regex flag; covers ASCII plus the one
non-ASCII letter appearing in the repository's patterns (`Módulo`). -/
def ciLower (c : Char) : Char :=
  if c = 'Ó' then 'ó' else c.toLower

/-! ## Python `str.strip`, `re.sub` on fixed classes, `int()` -/

/-- Left strip. -/
def stripLeft (l : List Char) : List Char := l.dropWhile isPySpace

/-- Right strip. -/
def stripRight (l : List Char) : List Char :=
  (l.reverse.dropWhile isPySpace).reverse

/-- Python `str.strip()`. -/
def pyStrip (l : List Char) : List Char := stripRight (stripLeft l)

/-- `re.sub(consts.NEWLINE_NAME, " ", text)`: every `\n` becomes a space. -/
def mapNl (l : List Char) : List Char :=
  l.map (fun c => if c = '\n' then ' ' else c)

/-- `clean_new_line` from helpers.py: newline→space then strip. -/
def cleanNewLineL (l : List Char) : List Char := pyStrip (mapNl l)

/-- `clean_string` from helpers.py: delete symbol characters then strip. -/
def cleanStringL (l : List Char) : List Char :=
  pyStrip (l.filter (fun c => !isSymbolChar c))

/-- The two cleaning passes of `clean_title`, before capitalization. -/
def cleanCore (l : List Char) : List Char := cleanStringL (cleanNewLineL l)

/-- `clean_title` from helpers.py.  `title[0]` raises `IndexError` when the
cleaned string is empty. -/
def cleanTitleL (l : List Char) : Except PyErr (List Char) :=
  match cleanCore l with
  | [] => .error .indexError
  | c :: r => .ok (asciiUpper c :: r)

/-- `clean_title` on `String`. -/
def cleanTitle (s : String) : Except PyErr String :=
  match cleanTitleL s.data with
  | .error e => .error e
  | .ok l => .ok (String.mk l)

/-- Decimal value of a digit run. -/
def digitsToNat (ds : List Char) : Nat :=
  ds.foldl (fun a d => a * 10 + (d.toNat - 48)) 0

/-- Python `int(s)` on a string: optionally signed digit run surrounded by
whitespace, else `ValueError`. -/
def pyInt (l : List Char) : Except PyErr Int :=
  match pyStrip l with
  | [] => .error (.valueError (String.mk l))
  | c :: rest =>
    if c = '-' then
      if rest ≠ [] ∧ rest.all Char.isDigit then .ok (-(digitsToNat rest : Int))
      else .error (.valueError (String.mk l))
    else if c = '+' then
      if rest ≠ [] ∧ rest.all Char.isDigit then .ok (digitsToNat rest : Int)
      else .error (.valueError (String.mk l))
    else
      if (c :: rest).all Char.isDigit then .ok (digitsToNat (c :: rest) : Int)
      else .error (.valueError (String.mk l))

/-! ## The word-with-boundary regexes

`consts.VIDEO_NUMBER  = r"(?i)\bClase\b(?:\s*)"` and
`consts.MODULE_NUMBER = r"(?i)\b(Módulo|Modulo)\b(?:\s*)"`.
A match is a case-insensitive occurrence of one of the words, delimited by
word boundaries, together with the whitespace that follows it.  `re.search`
asks whether a match exists; `re.sub(pat, "", s)` deletes every
(non-overlapping, left-to-right) match. -/

/-- Case-insensitive literal word match at the head; returns the rest. -/
def matchWordCI : List Char → List Char → Option (List Char)
  | [], s => some s
  | _ :: _, [] => none
  | c :: w, d :: s => if ciLower c = ciLower d then matchWordCI w s else none

/-- First alternative of `ws` that matches at the head of `s`. -/
def matchAnyWordCI (ws : List (List Char)) (s : List Char) : Option (List Char) :=
  ws.firstM (fun w => matchWordCI w s)

/-- Does a boundary-delimited occurrence of one of `ws` start exactly here?
`prevWord` says whether the previous character was a word character. -/
def hitAt (ws : List (List Char)) (prevWord : Bool) (s : List Char) :
    Option (List Char) :=
  if prevWord then none
  else match matchAnyWordCI ws s with
    | some rest =>
        if rest.head?.all (fun d => !isWordChar d) then some rest else none
    | none => none

/-- `re.search` of a boundary-delimited word: scan every start position. -/
def searchWordsAux (ws : List (List Char)) : Bool → List Char → Bool
  | _, [] => false
  | prevWord, c :: rest =>
    (hitAt ws prevWord (c :: rest)).isSome || searchWordsAux ws (isWordChar c) rest

/-- `re.search(pat, s) is not None` for a `(?i)\bword\b\s*` pattern. -/
def searchWords (ws : List (List Char)) (s : List Char) : Bool :=
  searchWordsAux ws false s

/-- `re.sub(pat, "", s)` for a `(?i)\bword\b\s*` pattern, fuelled by the
input length (each step consumes at least one character). -/
def subWordsAux (ws : List (List Char)) : Nat → Bool → List Char → List Char
  | 0, _, s => s
  | Nat.succ n, prevWord, s =>
    match s with
    | [] => []
    | c :: rest =>
      match hitAt ws prevWord s with
      | some rest2 =>
          let rest3 := rest2.dropWhile isPySpace
          -- the character preceding the next scan position is the last
          -- character the match consumed: a space if any `\s*` was eaten,
          -- otherwise the final (word) character of the matched word
          let prevWord2 := rest2 == rest3
          subWordsAux ws n prevWord2 rest3
      | none => c :: subWordsAux ws n (isWordChar c) rest

/-- `re.sub(pat, "", s)` for a `(?i)\bword\b\s*` pattern. -/
def subWords (ws : List (List Char)) (s : List Char) : List Char :=
  subWordsAux ws s.length false s

/-- The word of `consts.VIDEO_NUMBER`. -/
def claseWords : List (List Char) := ["clase".data]

/-- The alternatives of `consts.MODULE_NUMBER`. -/
def moduloWords : List (List Char) := ["módulo".data, "modulo".data]

/-! ## `consts.CLASS_NAME = r"(?m)^(\d+)-\s*(.*)"`

The inputs this pattern is applied to are always `clean_title` outputs and
therefore newline-free, so `(?m)^` can only anchor at the start of the
string and `(.*)` runs to its end.  Greedy `\d+` takes the leading digit
run, which must be followed directly by `-`. -/

/-- `re.search(consts.CLASS_NAME, s)` on a newline-free `s`: on success
returns `(group(1) digits, group(2) remainder)`. -/
def classNameMatch (l : List Char) : Option (List Char × List Char) :=
  if (l.takeWhile Char.isDigit).isEmpty then none
  else
    match l.dropWhile Char.isDigit with
    | '-' :: r => some (l.takeWhile Char.isDigit, r.dropWhile isPySpace)
    | _ => none

/-! ## URL classification

`consts.ARTICLE_URL_REGEX = r"https://codigofacilito\.com/articulos/.+"`
and the three analogous patterns, used through `re.compile(p).match(url)`:
the pattern must match at the start of the string, and `.+` requires at
least one following character that is not a newline. -/

/-- Match a literal character list at the head of `s`, returning the rest. -/
def matchLit : List Char → List Char → Option (List Char)
  | [], s => some s
  | _ :: _, [] => none
  | c :: p, d :: s => if c = d then matchLit p s else none

/-- `re.match` of `literal ++ ".+"`: the literal at the start, then at
least one non-newline character. -/
def reMatchLitDotPlus (pat s : List Char) : Bool :=
  match matchLit pat s with
  | some (c :: _) => c ≠ '\n'
  | _ => false

/-- `consts.BASE_URL`. -/
def BASE_URL : String := "https://codigofacilito.com"

/-- The full pattern literal for one content kind: base URL, slash, kind
segment.  The four kind segments are `articulos/`, `videos/`, `cursos/`,
`programas/`. -/
def urlPattern (seg : String) : List Char :=
  BASE_URL.data ++ '/' :: seg.data

/-- `is_article_url` from helpers.py. -/
def is_article_url (u : String) : Bool :=
  reMatchLitDotPlus (urlPattern "articulos/") u.data

/-- `is_video_url` from helpers.py. -/
def is_video_url (u : String) : Bool :=
  reMatchLitDotPlus (urlPattern "videos/") u.data

/-- `is_course_url` from helpers.py. -/
def is_course_url (u : String) : Bool :=
  reMatchLitDotPlus (urlPattern "cursos/") u.data

/-- `is_bootcamp_url` from helpers.py. -/
def is_bootcamp_url (u : String) : Bool :=
  reMatchLitDotPlus (urlPattern "programas/") u.data

/-- The content kinds distinguished by the dispatch in `coco.py`. -/
inductive ContentKind where
  | article | video | course | bootcamp | invalid
  deriving DecidableEq, Repr

/-- The URL dispatch order of `coco.py download`: article, video, course,
bootcamp; a URL matching none of the four patterns falls through. -/
def classifyUrl (u : String) : ContentKind :=
  if is_article_url u then .article
  else if is_video_url u then .video
  else if is_course_url u then .course
  else if is_bootcamp_url u then .bootcamp
  else .invalid

/-! ## The `consts` module surface

Module-level names bound in `src/facilito/consts.py` (the imported `Enum`
included).  Attribute access on any other name raises `AttributeError`. -/

/-- Every name defined at module level in consts.py. -/
def constsNames : List String :=
  ["Enum", "COOKIES_FILE", "BASE_URL", "LOGIN_URL", "POST_LOGIN_URL",
   "SAMPLE_VIDEO_URL", "SAMPLE_ARTICLE_URL", "SAMPLE_COURSE_URL",
   "ARTICLE_URL_REGEX", "VIDEO_URL_REGEX", "COURSE_URL_REGEX",
   "BOOTCAMP_URL_REGEX", "FFMPEG_URL", "CONFIG_FILE", "DOWNLOADS_DIR",
   "SYMBOLS_NAME", "NEWLINE_NAME", "CLASS_NAME", "BOOTCAMP_NAME",
   "MODULE_NUMBER", "VIDEO_NUMBER", "CLIENT_ERROR", "LOGIN_OK",
   "PROCESSING", "DOWNLOADING", "VIDEO_DL_DONE", "VIDEO_DL_ERROR_1",
   "VIDEO_DL_ERROR_2", "VIDEO_DL_ERROR_MAX", "FileType"]

/-- `hasattr(consts, n)`. -/
def constsHasAttr (n : String) : Bool := constsNames.contains n

/-! ## Flattened DOM element handles

Each Playwright element handle is abstracted by a record holding the
answers to the exact queries the code performs on it: a
`query_selector(sel)` result becomes an `Option String` field carrying the
selected element's `inner_html`/`inner_text` (`none` = no such element),
`query_selector_all` becomes a list field, `get_attribute("href")` an
`Option String`. -/

/-- An `a` tag inside a bootcamp class page, as inspected by `_get_videos`
(`clean_video_sequence` reads the `f-blues-text` paragraph,
`clean_video_title` the `ibm f-text-16 …` paragraph). -/
structure VideoATag where
  href : Option String
  videoNumHtml : Option String
  titleHtml : Option String
  deriving DecidableEq, Repr

/-- An `a` tag inside a bootcamp module, as inspected by `_get_classes`
(`clean_class_type` / `clean_class_sequence` read the `f-blues-text--2`
label paragraph; the class title paragraph is queried separately). -/
structure ClassATag where
  href : Option String
  labelHtml : Option String
  titleHtml : Option String
  deriving DecidableEq, Repr

/-- An `li[class*='f-radius-small']` module container, as inspected by
`_get_modules`: the green sequence span, the `h4` title, the yellow
"not charged" marker span's presence, and all contained `a` tags. -/
structure LiTag where
  seqSpanHtml : Option String
  h4Html : Option String
  notCharged : Bool
  aTags : List ClassATag
  deriving DecidableEq, Repr

/-- A bootcamp class page, as inspected by `_get_videos`: the collapsible
body (`none` = absent) and its `a` tags. -/
structure VideoPage where
  collapsible : Option (List VideoATag)
  deriving DecidableEq, Repr

/-- An `a` tag inside a course section container, as inspected by
`_get_sections` (the title paragraph is read with `inner_text`). -/
structure SecATag where
  titlePText : Option String
  href : Option String
  deriving DecidableEq, Repr

/-- A `div[class='f-top-16']` course section container. -/
structure SectionDiv where
  h4Text : Option String
  aTags : List SecATag
  deriving DecidableEq, Repr

/-! ## The ordinal / title parsers of helpers.py over element handles -/

/-- `clean_video_sequence` from helpers.py: absent paragraph → `0`;
otherwise clean the label, return `0` when `\bClase\b` does not occur, and
otherwise `int()` of the label with every `\bClase\b\s*` occurrence
deleted — which raises `ValueError` when that residue is not an integer
literal. -/
def clean_video_sequence (a : VideoATag) : Except PyErr Int :=
  match a.videoNumHtml with
  | none => .ok 0
  | some h =>
    match cleanTitleL h.data with
    | .error e => .error e
    | .ok t =>
      if searchWords claseWords t then pyInt (subWords claseWords t)
      else .ok 0

/-- `clean_video_title` from helpers.py. -/
def clean_video_title (a : VideoATag) : Except PyErr String :=
  match a.titleHtml with
  | none => .ok ""
  | some h => cleanTitle h

/-- `clean_class_sequence` from helpers.py: `int(match.group(1))` of the
`^(\d+)-\s*(.*)` match, `0` when it does not match. -/
def clean_class_sequence (a : ClassATag) : Except PyErr Int :=
  match a.labelHtml with
  | none => .ok 0
  | some h =>
    match cleanTitleL h.data with
    | .error e => .error e
    | .ok t =>
      match classNameMatch t with
      | none => .ok 0
      | some (ds, _) => pyInt ds

/-- `clean_class_type` from helpers.py: `match.group(2)` of the
`^(\d+)-\s*(.*)` match, `""` when it does not match. -/
def clean_class_type (a : ClassATag) : Except PyErr String :=
  match a.labelHtml with
  | none => .ok ""
  | some h =>
    match cleanTitleL h.data with
    | .error e => .error e
    | .ok t =>
      match classNameMatch t with
      | none => .ok ""
      | some (_, g2) => .ok (String.mk g2)

/-- `clean_module_title` from helpers.py. -/
def clean_module_title (li : LiTag) : Except PyErr String :=
  match li.h4Html with
  | none => .ok ""
  | some h => cleanTitle h

/-- `clean_module_sequence` from helpers.py: `int()` of the span label
with every `\b(Módulo|Modulo)\b\s*` occurrence deleted — there is no
match guard, so a label whose residue is not an integer literal raises
`ValueError`. -/
def clean_module_sequence (li : LiTag) : Except PyErr Int :=
  match li.seqSpanHtml with
  | none => .ok 0
  | some h =>
    match cleanTitleL h.data with
    | .error e => .error e
    | .ok t => pyInt (subWords moduloWords t)

/-! ## Tree models (models/bootcamp.py, models/course.py) -/

/-- `BootcampVideo` model. -/
structure BootcampVideo where
  url : String
  sequence : Int
  title : String
  deriving DecidableEq, Repr

/-- `BootcampClass` model. -/
structure BootcampClass where
  sequence : Int
  title : String
  url : String
  videos : List BootcampVideo
  deriving DecidableEq, Repr

/-- `BootcampModule` model. -/
structure BootcampModule where
  sequence : Int
  title : String
  classes : List BootcampClass
  deriving DecidableEq, Repr

/-- `VideoURL` model (models/course.py, as used by collectors.py). -/
structure VideoURL where
  title : String
  url : String
  deriving DecidableEq, Repr

/-- `CourseSection` model (models/course.py, as used by collectors.py). -/
structure CourseSection where
  title : String
  videos_url : List VideoURL
  deriving DecidableEq, Repr

/-- Rendering of an `Option` in a Python f-string: `None` for `none`. -/
def fmtOpt : Option String → String
  | none => "None"
  | some s => s

/-- Python `f"{n:02d}"`: zero-pad to width 2. -/
def pad2 (n : Int) : String :=
  let s := toString n
  if s.length ≥ 2 then s else "0" ++ s

/-! ## collectors.py -/

/-- The breadcrumb dict threaded through `_get_classes` / `_get_videos`. -/
structure DictInfo where
  bootcamp_name : String
  module_sequence : Int
  module_title : String
  deriving DecidableEq, Repr

/-- A file written by `_generate_file_course`: destination path (directory
plus `file_name.type_file`) and content. -/
structure FileWrite where
  path : String
  content : String
  deriving DecidableEq, Repr

/-- The title-filtering step of `_get_videos` reads
`consts.CLASS_BOOTCAMP_NAME` before any other use; the name is not defined
in consts.py, so the step always raises `AttributeError`.  (The regex
branch guarded by the lookup is unreachable and modelled as the identity.) -/
def classBootcampFilter (videoTitle : String) : Except PyErr String :=
  if constsHasAttr "CLASS_BOOTCAMP_NAME" then .ok videoTitle
  else .error (.attributeError "module facilito.consts has no attribute CLASS_BOOTCAMP_NAME")

/-- The body of the `for a_tag in a_tags` loop of `_get_videos`, collecting
`BootcampVideo` records; any exception aborts the whole loop. -/
def getVideosLoop : List VideoATag → Except PyErr (List BootcampVideo)
  | [] => .ok []
  | a :: rest =>
    match clean_video_sequence a with
    | .error e => .error e
    | .ok seq =>
      match clean_video_title a with
      | .error e => .error e
      | .ok t =>
        match classBootcampFilter t with
        | .error e => .error e
        | .ok t2 =>
          match cleanTitle t2 with
          | .error e => .error e
          | .ok t3 =>
            match getVideosLoop rest with
            | .error e => .error e
            | .ok vs =>
              .ok ({ url := BASE_URL ++ fmtOpt a.href,
                     sequence := seq, title := t3 } :: vs)

/-- `_get_videos` from collectors.py: absent collapsible body or no `a`
tags → `[]`; otherwise run the collection loop, and the surrounding
`except Exception` turns any raised error into `[]` as well. -/
def getVideos (pg : VideoPage) : List BootcampVideo :=
  match pg.collapsible with
  | none => []
  | some aTags =>
    if aTags.isEmpty then []
    else
      match getVideosLoop aTags with
      | .error _ => []
      | .ok vs => vs

/-- The marker file emitted by `_print_error_class` /
`_generate_file_course` for a "class" that is really a nested course. -/
def errorClassFile (d : DictInfo) (classSeq : Int) (classTitle classUrl : String) :
    FileWrite :=
  let dir := "downloads/" ++ d.bootcamp_name ++ "/"
      ++ pad2 d.module_sequence ++ ". " ++ d.module_title ++ "/"
  let fileName := pad2 classSeq ++ ". " ++ classTitle
  { path := dir ++ fileName ++ ".txt",
    content :=
      "  -- CURSO NO CLASE --  \n"
      ++ "En este bootcamp, esta no es una clase sino un curso completo,"
      ++ " puede revisarlo:\n"
      ++ "Curso: " ++ fileName ++ " => " ++ classUrl ++ "\n"
      ++ "  -- CURSO NO CLASE --  \n" }

/-- `_get_classes` from collectors.py.  `pages` maps a class URL to the
class page opened for it.  Returns the collected class list and the marker
files written along the way; a raised exception propagates.  Per the code:
the label type and sequence are parsed first; a link without the title
paragraph is only logged; `str + None` on a missing `href` raises
`TypeError`; a `"Curso"`-typed link is routed to `_print_error_class`
instead of being appended. -/
def getClassesLoop (d : DictInfo) (pages : String → VideoPage) :
    List ClassATag → Except PyErr (List BootcampClass × List FileWrite)
  | [] => .ok ([], [])
  | a :: rest =>
    match clean_class_type a with
    | .error e => .error e
    | .ok ctype =>
      match clean_class_sequence a with
      | .error e => .error e
      | .ok cseq =>
        match a.titleHtml with
        | none => getClassesLoop d pages rest
        | some th =>
          match cleanTitle th with
          | .error e => .error e
          | .ok ctitle =>
            match a.href with
            | none => .error .typeError
            | some href =>
              let curl := BASE_URL ++ href
              if ctype ≠ "Curso" then
                let vids := getVideos (pages curl)
                match getClassesLoop d pages rest with
                | .error e => .error e
                | .ok (cs, ws) =>
                  .ok ({ sequence := cseq, title := ctitle,
                         url := BASE_URL ++ curl, videos := vids } :: cs, ws)
              else
                match getClassesLoop d pages rest with
                | .error e => .error e
                | .ok (cs, ws) =>
                  .ok (cs, errorClassFile d cseq ctitle curl :: ws)

/-- `_get_modules` from collectors.py: for each module container, parse
title and sequence (both before the marker check); a container with the
yellow "not charged" span yields a module with an empty class list;
otherwise walk its class links.  (The `if module_title is None: continue`
line is dead code: `clean_module_title` always returns a string.) -/
def getModulesLoop (bootcampName : String) (pages : String → VideoPage) :
    List LiTag → Except PyErr (List BootcampModule × List FileWrite)
  | [] => .ok ([], [])
  | li :: rest =>
    match clean_module_title li with
    | .error e => .error e
    | .ok mtitle =>
      match clean_module_sequence li with
      | .error e => .error e
      | .ok mseq =>
        if li.notCharged then
          match getModulesLoop bootcampName pages rest with
          | .error e => .error e
          | .ok (ms, ws) =>
            .ok ({ sequence := mseq, title := mtitle, classes := [] } :: ms, ws)
        else
          match getClassesLoop
              { bootcamp_name := bootcampName, module_sequence := mseq,
                module_title := mtitle } pages li.aTags with
          | .error e => .error e
          | .ok (cs, wsC) =>
            match getModulesLoop bootcampName pages rest with
            | .error e => .error e
            | .ok (ms, ws) =>
              .ok ({ sequence := mseq, title := mtitle, classes := cs } :: ms,
                   wsC ++ ws)

/-- `_get_sections` from collectors.py: containers without an `h4` header
are skipped; for each `a` tag whose title paragraph exists, a `VideoURL`
is built from the raw `inner_text` title and the `href` attribute
interpolated after the base URL.  No cleaning is applied to either title. -/
def getSections (divs : List SectionDiv) : List CourseSection :=
  match divs with
  | [] => []
  | d :: rest =>
    match d.h4Text with
    | none => getSections rest
    | some h4 =>
      let vids := d.aTags.filterMap (fun a =>
        a.titlePText.map (fun t =>
          { title := t, url := BASE_URL ++ fmtOpt a.href : VideoURL }))
      { title := h4, videos_url := vids } :: getSections rest

/-! ## Leaf extraction (`get_video_detail_sync`) -/

/-- `MediaType` (models/video.py, as used by collectors.py). -/
inductive MediaType where
  | streaming | reading
  deriving DecidableEq, Repr

/-- `Video` model (models/video.py, as constructed by collectors.py). -/
structure Video where
  id : String
  url : String
  m3u8_url : String
  title : String
  media_type : Option MediaType
  description : Option String
  deriving DecidableEq, Repr

/-- A video page as inspected by `get_video_detail_sync`: the `h1` title
locator's `inner_text` (`none` = the locator raises, caught by the
surrounding `try`), and the `value` attributes of the `video_id` /
`course_id` inputs (`get_attribute` returns `None` for a missing value). -/
structure VideoDetailPage where
  titleH1 : Option String
  videoIdAttr : Option String
  courseIdAttr : Option String
  deriving DecidableEq, Repr

/-- Substring containment, Python `needle in hay`. -/
def containsSub (needle hay : List Char) : Bool :=
  match hay with
  | [] => needle.isEmpty
  | _ :: rest => (matchLit needle hay).isSome || containsSub needle rest

/-- `get_video_detail_sync` from collectors.py: reject URLs that are not
video URLs; wrap title lookup and cleaning in a `try` that re-raises as
`VideoError`; reject a missing `video_id`/`course_id` value; otherwise
construct the m3u8 locator from the fixed template and the two ids. -/
def get_video_detail_sync (url : String) (pg : VideoDetailPage) :
    Except PyErr Video :=
  if !is_video_url url then
    .error (.urlError ("[VIDEO] Invalid video URL: " ++ url))
  else
    match (match pg.titleH1 with
           | none => Except.error (PyErr.videoError ("[VIDEO] title not found: " ++ url))
           | some t =>
             match cleanTitle t with
             | .error _ => Except.error (PyErr.videoError ("[VIDEO] title not found: " ++ url))
             | .ok t2 => Except.ok t2) with
    | .error e => .error e
    | .ok title =>
      match pg.videoIdAttr, pg.courseIdAttr with
      | some vid, some cid =>
        let m3u8 := "https://video-storage.codigofacilito.com/hls/"
            ++ cid ++ "/" ++ vid ++ "/playlist.m3u8"
        let mt : Option MediaType :=
          if containsSub "/videos/".data url.data then some .streaming else none
        let mt := if containsSub "/articulos/".data url.data then some .reading else mt
        .ok { id := vid, url := url, m3u8_url := m3u8, title := title,
              media_type := mt, description := none }
      | _, _ => .error (.videoError ("[VIDEO] id not found: " ++ url))

/-! ## coco.py — download orchestration

The downloader stub `dl` maps the 1-based call number of
`video.download(...)` for the current item to success (`true`) or a raised
`DownloadError` (`false`).  The console messages relevant to the retry
contract are modelled as a log list. -/

/-- The retry-relevant console messages. -/
inductive DlLog where
  | retryNotice   -- VIDEO_DL_ERROR_1 + VIDEO_DL_ERROR_2
  | failureMax    -- VIDEO_DL_ERROR_MAX
  | doneMsg       -- VIDEO_DL_DONE
  deriving DecidableEq, Repr

/-- `max_retries` in coco.py. -/
def MAX_RETRIES : Nat := 5

/-- The course-branch retry loop, `for attempt in range(1, max_retries + 1)`
(coco.py download): on failure with `attempt < max_retries` print the retry
notice and continue, otherwise print the failure message and break; on
success print done and break.  Returns (attempt number at termination,
succeeded, log). -/
def retryCourseAux (dl : Nat → Bool) : List Nat → Nat × Bool × List DlLog
  | [] => (0, false, [])   -- unreachable: the final attempt always breaks
  | a :: rest =>
    if dl a then (a, true, [DlLog.doneMsg])
    else if a < MAX_RETRIES then
      let r := retryCourseAux dl rest
      (r.1, r.2.1, DlLog.retryNotice :: r.2.2)
    else (a, false, [DlLog.failureMax])

/-- The course-branch retry loop over attempts `1..5`. -/
def retryCourse (dl : Nat → Bool) : Nat × Bool × List DlLog :=
  retryCourseAux dl (List.range' 1 MAX_RETRIES)

/-- The bootcamp-branch retry loop, `for attempt in range(max_retries)`
(coco.py download): attempt counter runs `0..4`, so its `i`-th iteration is
the `i+1`-st downloader call, and the failure branch compares
`attempt < max_retries`, which is always true — the failure-max message is
unreachable and the loop can fall off its end after five failures. -/
def retryBootcampAux (dl : Nat → Bool) : List Nat → Nat × Bool × List DlLog
  | [] => (MAX_RETRIES, false, [])   -- loop exhausted without a break
  | a :: rest =>
    if dl (a + 1) then (a + 1, true, [DlLog.doneMsg])
    else if a < MAX_RETRIES then
      let r := retryBootcampAux dl rest
      (r.1, r.2.1, DlLog.retryNotice :: r.2.2)
    else (a + 1, false, [DlLog.failureMax])

/-- The bootcamp-branch retry loop over attempts `0..4`. -/
def retryBootcamp (dl : Nat → Bool) : Nat × Bool × List DlLog :=
  retryBootcampAux dl (List.range MAX_RETRIES)

/-- One entry of `lst_errors_url` in the course branch of coco.py:
the keys are `section`, `video_title`, `url`. -/
structure ErrEntry where
  sectionTitle : String
  video_title : String
  url : String
  deriving DecidableEq, Repr

/-- How one course item ended. -/
inductive OutKind where
  | articleDone
  | articleFail
  | urlInvalid                -- client.video raised URLError
  | videoDetailFail           -- client.video raised VideoError
  | dlDone (attempts : Nat)
  | dlFail (attempts : Nat)
  deriving DecidableEq, Repr

/-- The per-item record a traversal produces (breadcrumb + outcome). -/
structure ItemOutcome where
  sectionTitle : String
  itemTitle : String
  itemUrl : String
  kind : OutKind
  deriving DecidableEq, Repr

/-- Stubs for the course traversal's collaborators: `download_article`
(called, per the code, with the *course* URL plus the section directory and
item ordinal), `client.video`, and the per-item downloader indexed by item
URL and 1-based call number. -/
structure CourseStubs where
  articleOk : String → String → Nat → Bool
  clientVideo : String → Except PyErr Video
  dl : String → Nat → Bool

/-- The inner `for pfx_v, video_url in enumerate(section.videos_url, 1)`
loop of the course branch (coco.py download): an article URL goes to
`download_article` and a failure is appended to the error list; otherwise
`client.video` is called — `URLError` appends an entry and continues,
`VideoError` only logs and continues, any other exception propagates — and
on success the bounded retry loop runs, appending nothing either way. -/
def courseVideoLoop (st : CourseStubs) (courseUrl stitle : String) (pfxS : Nat) :
    Nat → List VideoURL → Except PyErr (List ErrEntry × List ItemOutcome)
  | _, [] => .ok ([], [])
  | pfxV, v :: rest =>
    if is_article_url v.url then
      let ok := st.articleOk courseUrl (pad2 pfxS ++ ". " ++ stitle) pfxV
      match courseVideoLoop st courseUrl stitle pfxS (pfxV + 1) rest with
      | .error e => .error e
      | .ok (es, os) =>
        if ok then
          .ok (es, { sectionTitle := stitle, itemTitle := v.title,
                     itemUrl := v.url, kind := .articleDone } :: os)
        else
          .ok ({ sectionTitle := stitle, video_title := v.title, url := v.url } :: es,
               { sectionTitle := stitle, itemTitle := v.title,
                 itemUrl := v.url, kind := .articleFail } :: os)
    else
      match st.clientVideo v.url with
      | .error (.urlError _) =>
        match courseVideoLoop st courseUrl stitle pfxS (pfxV + 1) rest with
        | .error e => .error e
        | .ok (es, os) =>
          .ok ({ sectionTitle := stitle, video_title := v.title, url := v.url } :: es,
               { sectionTitle := stitle, itemTitle := v.title,
                 itemUrl := v.url, kind := .urlInvalid } :: os)
      | .error (.videoError _) =>
        match courseVideoLoop st courseUrl stitle pfxS (pfxV + 1) rest with
        | .error e => .error e
        | .ok (es, os) =>
          .ok (es, { sectionTitle := stitle, itemTitle := v.title,
                     itemUrl := v.url, kind := .videoDetailFail } :: os)
      | .error e => .error e
      | .ok _video =>
        let r := retryCourse (st.dl v.url)
        match courseVideoLoop st courseUrl stitle pfxS (pfxV + 1) rest with
        | .error e => .error e
        | .ok (es, os) =>
          .ok (es, { sectionTitle := stitle, itemTitle := v.title,
                     itemUrl := v.url,
                     kind := if r.2.1 then .dlDone r.1 else .dlFail r.1 } :: os)

/-- The outer `for pfx_s, section in enumerate(course_sections, 1)` loop of
the course branch: each section's title is re-cleaned (`clean_title` may
raise, which aborts the traversal) before its items are walked. -/
def courseTraverse (st : CourseStubs) (courseUrl : String) :
    Nat → List CourseSection → Except PyErr (List ErrEntry × List ItemOutcome)
  | _, [] => .ok ([], [])
  | pfxS, s :: rest =>
    match cleanTitle s.title with
    | .error e => .error e
    | .ok stitle =>
      match courseVideoLoop st courseUrl stitle pfxS 1 s.videos_url with
      | .error e => .error e
      | .ok (es, os) =>
        match courseTraverse st courseUrl (pfxS + 1) rest with
        | .error e => .error e
        | .ok (es2, os2) => .ok (es ++ es2, os ++ os2)

/-- Stubs for the bootcamp traversal: `client.video` and the per-item
downloader. -/
structure BootcampStubs where
  clientVideo : String → Except PyErr Video
  dl : String → Nat → Bool

/-- The per-class video loop of the bootcamp branch (coco.py download):
`client.video` failures with `VideoError` only log and continue (any other
exception propagates); otherwise the bootcamp retry loop runs.  No error
list exists in this branch — only outcomes are produced. -/
def bootcampVideoLoop (st : BootcampStubs) (pathModule pathClass : String) :
    List BootcampVideo → Except PyErr (List ItemOutcome)
  | [] => .ok []
  | v :: rest =>
    match st.clientVideo v.url with
    | .error (.videoError _) =>
      match bootcampVideoLoop st pathModule pathClass rest with
      | .error e => .error e
      | .ok os =>
        .ok ({ sectionTitle := pathModule ++ " / " ++ pathClass,
               itemTitle := v.title, itemUrl := v.url,
               kind := .videoDetailFail } :: os)
    | .error e => .error e
    | .ok _video =>
      let r := retryBootcamp (st.dl v.url)
      match bootcampVideoLoop st pathModule pathClass rest with
      | .error e => .error e
      | .ok os =>
        .ok ({ sectionTitle := pathModule ++ " / " ++ pathClass,
               itemTitle := v.title, itemUrl := v.url,
               kind := if r.2.1 then .dlDone r.1 else .dlFail r.1 } :: os)

/-- The class loop of the bootcamp branch. -/
def bootcampClassLoop (st : BootcampStubs) (pathModule : String) :
    List BootcampClass → Except PyErr (List ItemOutcome)
  | [] => .ok []
  | c :: rest =>
    let pathClass := pad2 c.sequence ++ ". " ++ c.title
    match bootcampVideoLoop st pathModule pathClass c.videos with
    | .error e => .error e
    | .ok os =>
      match bootcampClassLoop st pathModule rest with
      | .error e => .error e
      | .ok os2 => .ok (os ++ os2)

/-- The module loop of the bootcamp branch: it returns outcomes only; no
aggregated error list is built anywhere in this branch. -/
def bootcampTraverse (st : BootcampStubs) :
    List BootcampModule → Except PyErr (List ItemOutcome)
  | [] => .ok []
  | m :: rest =>
    let pathModule := pad2 m.sequence ++ ". " ++ m.title
    match bootcampClassLoop st pathModule m.classes with
    | .error e => .error e
    | .ok os =>
      match bootcampTraverse st rest with
      | .error e => .error e
      | .ok os2 => .ok (os ++ os2)

/-! ## Normalization lemmas -/

/-- The head of the residue of `dropWhile` fails the predicate. -/
lemma head_dropWhile_false (p : Char → Bool) :
    ∀ (l : List Char) (c : Char), (l.dropWhile p).head? = some c → p c = false := by
  intro l
  induction l with
  | nil => intro c h; simp [List.dropWhile] at h
  | cons a t ih =>
    intro c h
    rw [List.dropWhile_cons] at h
    by_cases hp : p a
    · rw [if_pos hp] at h; exact ih c h
    · rw [if_neg hp] at h
      simp only [List.head?_cons, Option.some.injEq] at h
      subst h
      simpa using hp

/-- `dropWhile` only keeps characters of the input. -/
lemma mem_of_mem_dropWhile (p : Char → Bool) :
    ∀ (l : List Char) (c : Char), c ∈ l.dropWhile p → c ∈ l := by
  intro l
  induction l with
  | nil => intro c h; simpa [List.dropWhile] using h
  | cons a t ih =>
    intro c h
    rw [List.dropWhile_cons] at h
    by_cases hp : p a
    · rw [if_pos hp] at h; exact List.mem_cons_of_mem a (ih c h)
    · rwa [if_neg hp] at h

/-- `dropWhile` is the identity when the head already fails the predicate. -/
lemma dropWhile_eq_self_of_head (p : Char → Bool) (l : List Char)
    (h : ∀ c, l.head? = some c → p c = false) : l.dropWhile p = l := by
  cases l with
  | nil => rfl
  | cons a t =>
    rw [List.dropWhile_cons, if_neg]
    simp [h a rfl]

/-- `stripRight` removes exactly the trailing whitespace run. -/
lemma stripRight_append_eq (l : List Char) :
    stripRight l ++ (l.reverse.takeWhile isPySpace).reverse = l := by
  have h : l.reverse.takeWhile isPySpace ++ l.reverse.dropWhile isPySpace
      = l.reverse := List.takeWhile_append_dropWhile isPySpace l.reverse
  calc stripRight l ++ (l.reverse.takeWhile isPySpace).reverse
      = ((l.reverse.takeWhile isPySpace) ++ (l.reverse.dropWhile isPySpace)).reverse := by
        rw [List.reverse_append]; rfl
    _ = l.reverse.reverse := by rw [h]
    _ = l := List.reverse_reverse l

/-- The head survives `stripRight`. -/
lemma head_of_stripRight (l : List Char) (c : Char)
    (h : (stripRight l).head? = some c) : l.head? = some c := by
  have hd := stripRight_append_eq l
  cases hs : stripRight l with
  | nil => rw [hs] at h; simp at h
  | cons x r =>
    rw [hs] at h hd
    simp only [List.head?_cons, Option.some.injEq] at h
    subst h
    rw [← hd]
    simp

/-- The last character of a `stripRight` result is not whitespace. -/
lemma last_stripRight_false (l : List Char) (c : Char)
    (h : (stripRight l).getLast? = some c) : isPySpace c = false := by
  unfold stripRight at h
  rw [List.getLast?_reverse] at h
  exact head_dropWhile_false _ _ _ h

/-- `stripRight` only keeps characters of the input. -/
lemma mem_of_mem_stripRight (l : List Char) (c : Char)
    (h : c ∈ stripRight l) : c ∈ l := by
  unfold stripRight at h
  rw [List.mem_reverse] at h
  have := mem_of_mem_dropWhile isPySpace l.reverse c h
  rwa [List.mem_reverse] at this

/-- `stripRight` is the identity when the last character is not whitespace. -/
lemma stripRight_eq_self (l : List Char)
    (h : ∀ c, l.getLast? = some c → isPySpace c = false) : stripRight l = l := by
  unfold stripRight
  rw [dropWhile_eq_self_of_head isPySpace l.reverse, List.reverse_reverse]
  intro c hc
  rw [List.head?_reverse] at hc
  exact h c hc

/-- `pyStrip` only keeps characters of the input. -/
lemma mem_of_mem_pyStrip (l : List Char) (c : Char)
    (h : c ∈ pyStrip l) : c ∈ l :=
  mem_of_mem_dropWhile isPySpace l c (mem_of_mem_stripRight _ c h)

/-- The head of a `pyStrip` result is not whitespace. -/
lemma head_pyStrip_false (l : List Char) (c : Char)
    (h : (pyStrip l).head? = some c) : isPySpace c = false :=
  head_dropWhile_false isPySpace l c (head_of_stripRight _ c h)

/-- The last character of a `pyStrip` result is not whitespace. -/
lemma last_pyStrip_false (l : List Char) (c : Char)
    (h : (pyStrip l).getLast? = some c) : isPySpace c = false :=
  last_stripRight_false _ c h

/-- `pyStrip` is the identity on a string with non-whitespace ends. -/
lemma pyStrip_eq_self (l : List Char)
    (hh : ∀ c, l.head? = some c → isPySpace c = false)
    (hl : ∀ c, l.getLast? = some c → isPySpace c = false) : pyStrip l = l := by
  unfold pyStrip stripLeft
  rw [dropWhile_eq_self_of_head isPySpace l hh]
  exact stripRight_eq_self l hl

/-- Each `asciiUpper` output is the input itself or an upper-case letter
from the case table. -/
lemma asciiUpper_cases (c : Char) :
    asciiUpper c = c ∨ asciiUpper c ∈ upperPairs.map Prod.snd := by
  unfold asciiUpper
  cases hf : upperPairs.find? (fun p => p.1 == c) with
  | none => left; rfl
  | some p =>
    right
    have hp : p ∈ upperPairs := List.mem_of_find?_eq_some hf
    simpa using List.mem_map_of_mem Prod.snd hp

/-- Every upper-case letter of the table is an `asciiUpper` fixed point,
clean, and not whitespace. -/
lemma upper_letter_spec :
    ∀ d ∈ upperPairs.map Prod.snd,
      asciiUpper d = d ∧ isCleanChar d = true ∧ isPySpace d = false := by
  decide

/-- `asciiUpper` is idempotent. -/
lemma asciiUpper_idem (c : Char) : asciiUpper (asciiUpper c) = asciiUpper c := by
  rcases asciiUpper_cases c with h | h
  · rw [h, h]
  · exact (upper_letter_spec _ h).1

/-- `asciiUpper` preserves cleanness. -/
lemma isCleanChar_asciiUpper (c : Char) (h : isCleanChar c = true) :
    isCleanChar (asciiUpper c) = true := by
  rcases asciiUpper_cases c with hc | hc
  · rwa [hc]
  · exact (upper_letter_spec _ hc).2.1

/-- `asciiUpper` preserves non-whitespace. -/
lemma isPySpace_asciiUpper (c : Char) (h : isPySpace c = false) :
    isPySpace (asciiUpper c) = false := by
  rcases asciiUpper_cases c with hc | hc
  · rwa [hc]
  · exact (upper_letter_spec _ hc).2.2

/-- Head condition of a normalized title. -/
def headOk (l : List Char) : Bool :=
  match l.head? with
  | none => true
  | some c => !isPySpace c && (asciiUpper c == c)

/-- Tail condition of a normalized title. -/
def lastOk (l : List Char) : Bool :=
  match l.getLast? with
  | none => true
  | some c => !isPySpace c

/-- The post-normalization invariant of a stored title: every character
is clean (no newline, no markup symbol), no whitespace at either end, and
the first character is fixed by upper-casing ("first letter capitalized"). -/
def normalizedB (l : List Char) : Bool :=
  l.all isCleanChar && headOk l && lastOk l

/-- Characters of `mapNl` output are never newlines. -/
lemma mem_mapNl_ne_nl (l : List Char) (c : Char) (h : c ∈ mapNl l) :
    c ≠ '\n' := by
  unfold mapNl at h
  rw [List.mem_map] at h
  obtain ⟨d, _, hd⟩ := h
  by_cases hnl : d = '\n'
  · rw [if_pos hnl] at hd; rw [← hd]; decide
  · rw [if_neg hnl] at hd; rw [← hd]; exact hnl

/-- Every character of `cleanCore` output is clean. -/
lemma mem_cleanCore_clean (l : List Char) (c : Char) (h : c ∈ cleanCore l) :
    isCleanChar c = true := by
  unfold cleanCore cleanStringL at h
  have h1 := mem_of_mem_pyStrip _ c h
  rw [List.mem_filter] at h1
  obtain ⟨h2, h3⟩ := h1
  unfold cleanNewLineL at h2
  have h4 := mem_of_mem_pyStrip _ c h2
  have h5 := mem_mapNl_ne_nl l c h4
  unfold isCleanChar
  simp only [Bool.and_eq_true, bne_iff_ne, ne_eq, Bool.not_eq_true']
  exact ⟨by simpa using h5, by simpa using h3⟩

/-- The head of `cleanCore` output is not whitespace. -/
lemma cleanCore_head_false (l : List Char) (c : Char)
    (h : (cleanCore l).head? = some c) : isPySpace c = false :=
  head_pyStrip_false _ c h

/-- The last character of `cleanCore` output is not whitespace. -/
lemma cleanCore_last_false (l : List Char) (c : Char)
    (h : (cleanCore l).getLast? = some c) : isPySpace c = false :=
  last_pyStrip_false _ c h

/-- A successful `clean_title` output satisfies the normalization
invariant. -/
lemma cleanTitleL_ok_normalized (l t : List Char)
    (h : cleanTitleL l = .ok t) : normalizedB t = true := by
  unfold cleanTitleL at h
  cases hc : cleanCore l with
  | nil => rw [hc] at h; exact absurd h (by simp)
  | cons c r =>
    rw [hc] at h
    simp only [Except.ok.injEq] at h
    subst h
    have hcmem : c ∈ cleanCore l := by rw [hc]; exact List.mem_cons_self c r
    have hcclean : isCleanChar c = true := mem_cleanCore_clean l c hcmem
    have hchead : isPySpace c = false :=
      cleanCore_head_false l c (by rw [hc]; rfl)
    unfold normalizedB
    rw [Bool.and_eq_true, Bool.and_eq_true]
    refine ⟨⟨?_, ?_⟩, ?_⟩
    · rw [List.all_eq_true]
      intro d hd
      rcases List.mem_cons.1 hd with hd | hd
      · rw [hd]; exact isCleanChar_asciiUpper c hcclean
      · exact mem_cleanCore_clean l d (by rw [hc]; exact List.mem_cons_of_mem c hd)
    · unfold headOk
      simp only [List.head?_cons]
      rw [isPySpace_asciiUpper c hchead, asciiUpper_idem c]
      simp
    · unfold lastOk
      cases hr : r with
      | nil =>
        simp only [List.getLast?_singleton]
        rw [isPySpace_asciiUpper c hchead]
        rfl
      | cons x xs =>
        rw [List.getLast?_cons_cons]
        cases hg : (x :: xs).getLast? with
        | none => rfl
        | some d =>
          have hcl : (cleanCore l).getLast? = some d := by
            rw [hc, hr, List.getLast?_cons_cons, hg]
          show (!isPySpace d) = true
          rw [cleanCore_last_false l d hcl]
          rfl

/-- `mapNl` is the identity on a newline-free string. -/
lemma mapNl_eq_self : ∀ (m : List Char), (∀ a ∈ m, a ≠ '\n') → mapNl m = m := by
  intro m
  induction m with
  | nil => intro _; rfl
  | cons a t ih =>
    intro hm
    unfold mapNl at ih ⊢
    simp only [List.map_cons]
    rw [if_neg (hm a (List.mem_cons_self a t)), ih]
    intro b hb
    exact hm b (List.mem_cons_of_mem a hb)

/-- On a normalized nonempty string, `clean_title` is the identity. -/
lemma cleanTitleL_fix (l : List Char) (hn : normalizedB l = true)
    (hne : l ≠ []) : cleanTitleL l = .ok l := by
  unfold normalizedB at hn
  simp only [Bool.and_eq_true] at hn
  obtain ⟨⟨hall, hhead⟩, hlast⟩ := hn
  rw [List.all_eq_true] at hall
  have hnl : ∀ c ∈ l, c ≠ '\n' := by
    intro c hcm
    have hc := hall c hcm
    unfold isCleanChar at hc
    simp only [Bool.and_eq_true] at hc
    exact of_decide_eq_true hc.1
  have hsym : ∀ c ∈ l, isSymbolChar c = false := by
    intro c hcm
    have hc := hall c hcm
    unfold isCleanChar at hc
    simp only [Bool.and_eq_true, Bool.not_eq_true'] at hc
    exact hc.2
  have hheadFalse : ∀ c, l.head? = some c → isPySpace c = false := by
    intro c hc
    unfold headOk at hhead
    rw [hc] at hhead
    simp only [Bool.and_eq_true, Bool.not_eq_true'] at hhead
    exact hhead.1
  have hlastFalse : ∀ c, l.getLast? = some c → isPySpace c = false := by
    intro c hc
    unfold lastOk at hlast
    rw [hc] at hlast
    simpa using hlast
  have hmap : mapNl l = l := mapNl_eq_self l hnl
  have hfil : l.filter (fun c => !isSymbolChar c) = l := by
    rw [List.filter_eq_self]
    intro a ha
    simp [hsym a ha]
  have hstrip : pyStrip l = l := pyStrip_eq_self l hheadFalse hlastFalse
  have hcore : cleanCore l = l := by
    unfold cleanCore cleanNewLineL cleanStringL
    rw [hmap, hstrip, hfil, hstrip]
  unfold cleanTitleL
  rw [hcore]
  cases l with
  | nil => exact absurd rfl hne
  | cons c r =>
    have hu : asciiUpper c = c := by
      unfold headOk at hhead
      simp only [List.head?_cons, Bool.and_eq_true, beq_iff_eq] at hhead
      exact hhead.2
    show Except.ok (asciiUpper c :: r) = Except.ok (c :: r)
    rw [hu]

/-- String-level form: a successful `clean_title` output is normalized. -/
lemma cleanTitle_ok_normalized (s t : String) (h : cleanTitle s = .ok t) :
    normalizedB t.data = true := by
  unfold cleanTitle at h
  cases hc : cleanTitleL s.data with
  | error e => rw [hc] at h; exact absurd h (by simp)
  | ok l =>
    rw [hc] at h
    simp only [Except.ok.injEq] at h
    rw [← h]
    exact cleanTitleL_ok_normalized s.data l hc

/-- A successful `clean_title` output is nonempty. -/
lemma cleanTitleL_ok_ne_nil (l t : List Char) (h : cleanTitleL l = .ok t) :
    t ≠ [] := by
  unfold cleanTitleL at h
  cases hc : cleanCore l with
  | nil => rw [hc] at h; exact absurd h (by simp)
  | cons c r =>
    rw [hc] at h
    simp only [Except.ok.injEq] at h
    rw [← h]
    simp

/-- `_get_videos` error path: with at least one hyperlink, the loop body
always raises (at the latest at the `consts.CLASS_BOOTCAMP_NAME` lookup). -/
lemma getVideosLoop_cons_error (a : VideoATag) (rest : List VideoATag) :
    ∃ e, getVideosLoop (a :: rest) = .error e := by
  have hattr : constsHasAttr "CLASS_BOOTCAMP_NAME" = false := by decide
  unfold getVideosLoop
  cases h1 : clean_video_sequence a with
  | error e => exact ⟨e, rfl⟩
  | ok seq =>
    cases h2 : clean_video_title a with
    | error e => exact ⟨e, rfl⟩
    | ok t =>
      refine ⟨.attributeError "module facilito.consts has no attribute CLASS_BOOTCAMP_NAME", ?_⟩
      have hf : classBootcampFilter t
          = .error (.attributeError "module facilito.consts has no attribute CLASS_BOOTCAMP_NAME") := by
        unfold classBootcampFilter
        rw [if_neg]
        simp [hattr]
      simp only [hf]

/-- `_get_videos` returns the empty list on every input page. -/
lemma getVideos_nil (pg : VideoPage) : getVideos pg = [] := by
  rcases pg with ⟨col⟩
  cases col with
  | none => rfl
  | some aTags =>
    cases aTags with
    | nil => rfl
    | cons a rest =>
      obtain ⟨e, he⟩ := getVideosLoop_cons_error a rest
      simp [getVideos, he]

/-- Every class record a successful `_get_classes` walk collects has a
normalized (post-`clean_title`) title and an empty video list. -/
lemma getClassesLoop_ok_props (d : DictInfo) (pages : String → VideoPage) :
    ∀ (as : List ClassATag) (cs : List BootcampClass) (ws : List FileWrite),
      getClassesLoop d pages as = .ok (cs, ws) →
      ∀ c ∈ cs, normalizedB c.title.data = true ∧ c.videos = [] := by
  intro as
  induction as with
  | nil =>
    intro cs ws h c hc
    unfold getClassesLoop at h
    simp only [Except.ok.injEq, Prod.mk.injEq] at h
    rw [← h.1] at hc
    simp at hc
  | cons a rest ih =>
    intro cs ws h c hc
    unfold getClassesLoop at h
    cases h1 : clean_class_type a with
    | error e => simp only [h1] at h; exact absurd h (by simp)
    | ok ctype =>
      simp only [h1] at h
      cases h2 : clean_class_sequence a with
      | error e => simp only [h2] at h; exact absurd h (by simp)
      | ok cseq =>
        simp only [h2] at h
        cases h3 : a.titleHtml with
        | none => simp only [h3] at h; exact ih cs ws h c hc
        | some th =>
          simp only [h3] at h
          cases h4 : cleanTitle th with
          | error e => simp only [h4] at h; exact absurd h (by simp)
          | ok ctitle =>
            simp only [h4] at h
            cases h5 : a.href with
            | none => simp only [h5] at h; exact absurd h (by simp)
            | some href =>
              simp only [h5] at h
              by_cases h6 : ctype ≠ "Curso"
              · rw [if_pos h6] at h
                cases h7 : getClassesLoop d pages rest with
                | error e => simp only [h7] at h; exact absurd h (by simp)
                | ok p =>
                  obtain ⟨cs', ws'⟩ := p
                  simp only [h7, Except.ok.injEq, Prod.mk.injEq] at h
                  obtain ⟨hcs, _⟩ := h
                  rw [← hcs] at hc
                  rcases List.mem_cons.1 hc with hceq | hcm
                  · subst hceq
                    exact ⟨cleanTitle_ok_normalized th ctitle h4, getVideos_nil _⟩
                  · exact ih cs' ws' h7 c hcm
              · rw [if_neg h6] at h
                cases h7 : getClassesLoop d pages rest with
                | error e => simp only [h7] at h; exact absurd h (by simp)
                | ok p =>
                  obtain ⟨cs', ws'⟩ := p
                  simp only [h7, Except.ok.injEq, Prod.mk.injEq] at h
                  obtain ⟨hcs, _⟩ := h
                  rw [← hcs] at hc
                  exact ih cs' ws' h7 c hc

/-- `clean_module_title` outputs are normalized. -/
lemma clean_module_title_normalized (li : LiTag) (t : String)
    (h : clean_module_title li = .ok t) : normalizedB t.data = true := by
  unfold clean_module_title at h
  cases hh : li.h4Html with
  | none =>
    rw [hh] at h
    simp only [Except.ok.injEq] at h
    rw [← h]
    decide
  | some s =>
    rw [hh] at h
    exact cleanTitle_ok_normalized s t h

/-- Every module record a successful `_get_modules` walk collects has a
normalized title, and its classes have normalized titles and no videos. -/
lemma getModulesLoop_ok_props (bn : String) (pages : String → VideoPage) :
    ∀ (lis : List LiTag) (ms : List BootcampModule) (ws : List FileWrite),
      getModulesLoop bn pages lis = .ok (ms, ws) →
      ∀ m ∈ ms, normalizedB m.title.data = true ∧
        ∀ c ∈ m.classes, normalizedB c.title.data = true ∧ c.videos = [] := by
  intro lis
  induction lis with
  | nil =>
    intro ms ws h m hm
    unfold getModulesLoop at h
    simp only [Except.ok.injEq, Prod.mk.injEq] at h
    rw [← h.1] at hm
    simp at hm
  | cons li rest ih =>
    intro ms ws h m hm
    unfold getModulesLoop at h
    cases h1 : clean_module_title li with
    | error e => simp only [h1] at h; exact absurd h (by simp)
    | ok mtitle =>
      simp only [h1] at h
      cases h2 : clean_module_sequence li with
      | error e => simp only [h2] at h; exact absurd h (by simp)
      | ok mseq =>
        simp only [h2] at h
        by_cases h3 : li.notCharged = true
        · rw [if_pos h3] at h
          cases h4 : getModulesLoop bn pages rest with
          | error e => simp only [h4] at h; exact absurd h (by simp)
          | ok p =>
            obtain ⟨ms', ws'⟩ := p
            simp only [h4, Except.ok.injEq, Prod.mk.injEq] at h
            obtain ⟨hms, _⟩ := h
            rw [← hms] at hm
            rcases List.mem_cons.1 hm with hmeq | hmm
            · subst hmeq
              refine ⟨clean_module_title_normalized li mtitle h1, ?_⟩
              intro c hc
              simp at hc
            · exact ih ms' ws' h4 m hmm
        · rw [if_neg h3] at h
          cases h5 : getClassesLoop
              { bootcamp_name := bn, module_sequence := mseq,
                module_title := mtitle } pages li.aTags with
          | error e => simp only [h5] at h; exact absurd h (by simp)
          | ok pc =>
            obtain ⟨cs, wsC⟩ := pc
            simp only [h5] at h
            cases h4 : getModulesLoop bn pages rest with
            | error e => simp only [h4] at h; exact absurd h (by simp)
            | ok p =>
              obtain ⟨ms', ws'⟩ := p
              simp only [h4, Except.ok.injEq, Prod.mk.injEq] at h
              obtain ⟨hms, _⟩ := h
              rw [← hms] at hm
              rcases List.mem_cons.1 hm with hmeq | hmm
              · subst hmeq
                refine ⟨clean_module_title_normalized li mtitle h1, ?_⟩
                intro c hc
                exact getClassesLoop_ok_props _ pages li.aTags cs wsC h5 c hc
              · exact ih ms' ws' h4 m hmm

/-! ## URL pattern lemmas -/

/-- `matchLit` splits over append. -/
lemma matchLit_append (p q : List Char) :
    ∀ s, matchLit (p ++ q) s = (matchLit p s).bind (matchLit q) := by
  induction p with
  | nil => intro s; rfl
  | cons c p ih =>
    intro s
    cases s with
    | nil => rfl
    | cons d t =>
      show (if c = d then matchLit (p ++ q) t else none)
          = (if c = d then matchLit p t else none).bind (matchLit q)
      by_cases hcd : c = d
      · rw [if_pos hcd, if_pos hcd, ih]
      · rw [if_neg hcd, if_neg hcd]; rfl

/-- A successful literal match forces the head of the input. -/
lemma matchLit_cons_shape (c : Char) (p s r : List Char)
    (h : matchLit (c :: p) s = some r) : ∃ t, s = c :: t := by
  cases s with
  | nil => exact absurd h (by simp [matchLit])
  | cons d t =>
    by_cases hcd : c = d
    · exact ⟨t, by rw [hcd]⟩
    · rw [show matchLit (c :: p) (d :: t)
          = (if c = d then matchLit p t else none) from rfl, if_neg hcd] at h
      exact absurd h (by simp)

/-- Two kind patterns whose segments start with different characters can
never both match the same URL. -/
lemma urlPattern_exclusive (a b : String) (x y : Char) (xs ys : List Char)
    (ha : a.data = x :: xs) (hb : b.data = y :: ys) (hxy : x ≠ y) (s : List Char)
    (h1 : reMatchLitDotPlus (urlPattern a) s = true)
    (h2 : reMatchLitDotPlus (urlPattern b) s = true) : False := by
  unfold reMatchLitDotPlus at h1 h2
  obtain ⟨r1, hr1⟩ : ∃ r, matchLit (urlPattern a) s = some r := by
    cases hm : matchLit (urlPattern a) s with
    | none => rw [hm] at h1; exact absurd h1 (by simp)
    | some r => exact ⟨r, rfl⟩
  obtain ⟨r2, hr2⟩ : ∃ r, matchLit (urlPattern b) s = some r := by
    cases hm : matchLit (urlPattern b) s with
    | none => rw [hm] at h2; exact absurd h2 (by simp)
    | some r => exact ⟨r, rfl⟩
  unfold urlPattern at hr1 hr2
  rw [matchLit_append] at hr1 hr2
  cases hm : matchLit BASE_URL.data s with
  | none => rw [hm] at hr1; exact absurd hr1 (by simp)
  | some t =>
    rw [hm] at hr1 hr2
    have hA : matchLit ('/' :: a.data) t = some r1 := hr1
    have hB : matchLit ('/' :: b.data) t = some r2 := hr2
    rw [ha] at hA
    rw [hb] at hB
    obtain ⟨t1, ht1⟩ := matchLit_cons_shape '/' _ t r1 hA
    subst ht1
    have hx : matchLit (x :: xs) t1 = some r1 := by
      rw [show matchLit ('/' :: x :: xs) ('/' :: t1)
          = (if '/' = '/' then matchLit (x :: xs) t1 else none) from rfl,
        if_pos rfl] at hA
      exact hA
    have hy : matchLit (y :: ys) t1 = some r2 := by
      rw [show matchLit ('/' :: y :: ys) ('/' :: t1)
          = (if '/' = '/' then matchLit (y :: ys) t1 else none) from rfl,
        if_pos rfl] at hB
      exact hB
    obtain ⟨t2, ht2⟩ := matchLit_cons_shape x _ t1 r1 hx
    obtain ⟨t3, ht3⟩ := matchLit_cons_shape y _ t1 r2 hy
    rw [ht2] at ht3
    exact hxy (List.head_eq_of_cons_eq ht3)

/-! ## `pyInt` on digit runs -/

/-- Digits are not whitespace. -/
lemma isPySpace_of_digit (c : Char) (h : c.isDigit = true) :
    isPySpace c = false := by
  by_contra hs
  rw [Bool.not_eq_false] at hs
  unfold isPySpace at hs
  simp only [Bool.or_eq_true, decide_eq_true_eq] at hs
  rcases hs with ((((h' | h') | h') | h') | h') | h' <;>
    (subst h'; exact absurd h (by decide))

/-- Head membership. -/
lemma mem_of_head?_eq (l : List Char) (c : Char) (h : l.head? = some c) :
    c ∈ l := by
  cases l with
  | nil => simp at h
  | cons a t =>
    simp only [List.head?_cons, Option.some.injEq] at h
    rw [← h]
    exact List.mem_cons_self a t

/-- Last membership. -/
lemma mem_of_getLast?_eq (l : List Char) (c : Char) (h : l.getLast? = some c) :
    c ∈ l := by
  have hr : l.reverse.head? = some c := by rw [List.head?_reverse]; exact h
  have := mem_of_head?_eq l.reverse c hr
  rwa [List.mem_reverse] at this

/-- `int()` succeeds on any nonempty digit run. -/
lemma pyInt_digits (ds : List Char) (hne : ds ≠ [])
    (hd : ds.all Char.isDigit = true) : ∃ n : Int, pyInt ds = .ok n := by
  rw [List.all_eq_true] at hd
  have hstrip : pyStrip ds = ds := by
    refine pyStrip_eq_self ds ?_ ?_
    · intro c hc
      exact isPySpace_of_digit c (hd c (mem_of_head?_eq ds c hc))
    · intro c hc
      exact isPySpace_of_digit c (hd c (mem_of_getLast?_eq ds c hc))
  cases ds with
  | nil => exact absurd rfl hne
  | cons c rest =>
    have hc : c.isDigit = true := hd c (List.mem_cons_self c rest)
    have hm : c ≠ '-' := fun e => by rw [e] at hc; exact absurd hc (by decide)
    have hp : c ≠ '+' := fun e => by rw [e] at hc; exact absurd hc (by decide)
    have hall : (c :: rest).all Char.isDigit = true := List.all_eq_true.mpr hd
    refine ⟨(digitsToNat (c :: rest) : Int), ?_⟩
    simp only [pyInt, hstrip]
    rw [if_neg hm, if_neg hp, if_pos hall]

/-! ## Course traversal error-list characterization -/

/-- The error entry a course-item outcome contributes to `lst_errors_url`,
per coco.py: only a failed embedded-article download or a video URL
rejected with `URLError` appends an entry. -/
def errOfOutcome (o : ItemOutcome) : Option ErrEntry :=
  match o.kind with
  | .articleFail =>
    some { sectionTitle := o.sectionTitle, video_title := o.itemTitle, url := o.itemUrl }
  | .urlInvalid =>
    some { sectionTitle := o.sectionTitle, video_title := o.itemTitle, url := o.itemUrl }
  | _ => none

/-- Inner-loop invariant: the collected error list is exactly the
`errOfOutcome` projection of the outcomes, and every item yields exactly
one outcome. -/
lemma courseVideoLoop_spec (st : CourseStubs) (courseUrl stitle : String)
    (pfxS : Nat) :
    ∀ (vs : List VideoURL) (pfxV : Nat) (es : List ErrEntry)
      (os : List ItemOutcome),
      courseVideoLoop st courseUrl stitle pfxS pfxV vs = .ok (es, os) →
      es = os.filterMap errOfOutcome ∧ os.length = vs.length := by
  intro vs
  induction vs with
  | nil =>
    intro pfxV es os h
    unfold courseVideoLoop at h
    simp only [Except.ok.injEq, Prod.mk.injEq] at h
    obtain ⟨he, ho⟩ := h
    rw [← he, ← ho]
    exact ⟨rfl, rfl⟩
  | cons v rest ih =>
    intro pfxV es os h
    unfold courseVideoLoop at h
    by_cases hart : is_article_url v.url = true
    · rw [if_pos hart] at h
      cases h7 : courseVideoLoop st courseUrl stitle pfxS (pfxV + 1) rest with
      | error e => simp only [h7] at h; exact absurd h (by simp)
      | ok p =>
        obtain ⟨es', os'⟩ := p
        simp only [h7] at h
        obtain ⟨hes', hlen⟩ := ih (pfxV + 1) es' os' h7
        by_cases hok : st.articleOk courseUrl (pad2 pfxS ++ ". " ++ stitle) pfxV = true
        · rw [if_pos hok] at h
          simp only [Except.ok.injEq, Prod.mk.injEq] at h
          obtain ⟨hes, hos⟩ := h
          rw [← hes, ← hos]
          refine ⟨?_, by simp [hlen]⟩
          rw [hes']
          simp [errOfOutcome, List.filterMap_cons]
        · rw [if_neg hok] at h
          simp only [Except.ok.injEq, Prod.mk.injEq] at h
          obtain ⟨hes, hos⟩ := h
          rw [← hes, ← hos]
          refine ⟨?_, by simp [hlen]⟩
          rw [hes']
          simp [errOfOutcome, List.filterMap_cons]
    · rw [if_neg hart] at h
      cases hcv : st.clientVideo v.url with
      | error e =>
        cases e with
        | urlError msg =>
          simp only [hcv] at h
          cases h7 : courseVideoLoop st courseUrl stitle pfxS (pfxV + 1) rest with
          | error e2 => simp only [h7] at h; exact absurd h (by simp)
          | ok p =>
            obtain ⟨es', os'⟩ := p
            simp only [h7, Except.ok.injEq, Prod.mk.injEq] at h
            obtain ⟨hes, hos⟩ := h
            obtain ⟨hes', hlen⟩ := ih (pfxV + 1) es' os' h7
            rw [← hes, ← hos]
            refine ⟨?_, by simp [hlen]⟩
            rw [hes']
            simp [errOfOutcome, List.filterMap_cons]
        | videoError msg =>
          simp only [hcv] at h
          cases h7 : courseVideoLoop st courseUrl stitle pfxS (pfxV + 1) rest with
          | error e2 => simp only [h7] at h; exact absurd h (by simp)
          | ok p =>
            obtain ⟨es', os'⟩ := p
            simp only [h7, Except.ok.injEq, Prod.mk.injEq] at h
            obtain ⟨hes, hos⟩ := h
            obtain ⟨hes', hlen⟩ := ih (pfxV + 1) es' os' h7
            rw [← hes, ← hos]
            refine ⟨?_, by simp [hlen]⟩
            rw [hes']
            simp [errOfOutcome, List.filterMap_cons]
        | valueError msg => simp only [hcv] at h; exact absurd h (by simp)
        | indexError => simp only [hcv] at h; exact absurd h (by simp)
        | attributeError msg => simp only [hcv] at h; exact absurd h (by simp)
        | typeError => simp only [hcv] at h; exact absurd h (by simp)
        | courseError msg => simp only [hcv] at h; exact absurd h (by simp)
        | bootcampError msg => simp only [hcv] at h; exact absurd h (by simp)
      | ok video =>
        simp only [hcv] at h
        cases h7 : courseVideoLoop st courseUrl stitle pfxS (pfxV + 1) rest with
        | error e2 => simp only [h7] at h; exact absurd h (by simp)
        | ok p =>
          obtain ⟨es', os'⟩ := p
          simp only [h7, Except.ok.injEq, Prod.mk.injEq] at h
          obtain ⟨hes, hos⟩ := h
          obtain ⟨hes', hlen⟩ := ih (pfxV + 1) es' os' h7
          rw [← hes, ← hos]
          refine ⟨?_, by simp [hlen]⟩
          rw [hes']
          by_cases hb : (retryCourse (st.dl v.url)).2.1 = true
          · rw [if_pos hb]
            simp [errOfOutcome, List.filterMap_cons]
          · rw [if_neg hb]
            simp [errOfOutcome, List.filterMap_cons]

/-- Outer-loop invariant: same characterization across sections. -/
lemma courseTraverse_spec (st : CourseStubs) (courseUrl : String) :
    ∀ (sections : List CourseSection) (pfxS : Nat) (es : List ErrEntry)
      (os : List ItemOutcome),
      courseTraverse st courseUrl pfxS sections = .ok (es, os) →
      es = os.filterMap errOfOutcome
      ∧ os.length = (sections.map (fun s => s.videos_url.length)).sum := by
  intro sections
  induction sections with
  | nil =>
    intro pfxS es os h
    unfold courseTraverse at h
    simp only [Except.ok.injEq, Prod.mk.injEq] at h
    obtain ⟨he, ho⟩ := h
    rw [← he, ← ho]
    exact ⟨rfl, rfl⟩
  | cons s rest ih =>
    intro pfxS es os h
    unfold courseTraverse at h
    cases h1 : cleanTitle s.title with
    | error e => simp only [h1] at h; exact absurd h (by simp)
    | ok stitle =>
      simp only [h1] at h
      cases h2 : courseVideoLoop st courseUrl stitle pfxS 1 s.videos_url with
      | error e => simp only [h2] at h; exact absurd h (by simp)
      | ok p =>
        obtain ⟨es1, os1⟩ := p
        simp only [h2] at h
        cases h3 : courseTraverse st courseUrl (pfxS + 1) rest with
        | error e => simp only [h3] at h; exact absurd h (by simp)
        | ok q =>
          obtain ⟨es2, os2⟩ := q
          simp only [h3, Except.ok.injEq, Prod.mk.injEq] at h
          obtain ⟨hes, hos⟩ := h
          obtain ⟨ha, hb⟩ := courseVideoLoop_spec st courseUrl stitle pfxS
            s.videos_url 1 es1 os1 h2
          obtain ⟨hc, hd⟩ := ih (pfxS + 1) es2 os2 h3
          rw [← hes, ← hos]
          constructor
          · rw [List.filterMap_append, ha, hc]
          · simp [List.length_append, hb, hd]

/-! ## Retry-loop bounds -/

/-- The course retry loop never reports an attempt number above the bound. -/
lemma retryCourseAux_fst_le (dl : Nat → Bool) :
    ∀ l : List Nat, (∀ a ∈ l, a ≤ 5) → (retryCourseAux dl l).1 ≤ 5 := by
  intro l
  induction l with
  | nil => intro _; simp [retryCourseAux]
  | cons a rest ih =>
    intro hl
    unfold retryCourseAux
    by_cases hd : dl a = true
    · rw [if_pos hd]
      exact hl a (List.mem_cons_self a rest)
    · rw [if_neg hd]
      by_cases hlt : a < MAX_RETRIES
      · rw [if_pos hlt]
        exact ih (fun b hb => hl b (List.mem_cons_of_mem a hb))
      · rw [if_neg hlt]
        exact hl a (List.mem_cons_self a rest)

/-- The bootcamp retry loop never reports an attempt number above the
bound. -/
lemma retryBootcampAux_fst_le (dl : Nat → Bool) :
    ∀ l : List Nat, (∀ a ∈ l, a + 1 ≤ 5) → (retryBootcampAux dl l).1 ≤ 5 := by
  intro l
  induction l with
  | nil => intro _; simp [retryBootcampAux, MAX_RETRIES]
  | cons a rest ih =>
    intro hl
    unfold retryBootcampAux
    by_cases hd : dl (a + 1) = true
    · rw [if_pos hd]
      exact hl a (List.mem_cons_self a rest)
    · rw [if_neg hd]
      by_cases hlt : a < MAX_RETRIES
      · rw [if_pos hlt]
        exact ih (fun b hb => hl b (List.mem_cons_of_mem a hb))
      · rw [if_neg hlt]
        exact hl a (List.mem_cons_self a rest)

/-! ## Ordinal-parser support -/

/-- A successful `CLASS_NAME` match has a nonempty, all-digit first group. -/
lemma classNameMatch_some (l ds g2 : List Char)
    (h : classNameMatch l = some (ds, g2)) :
    ds ≠ [] ∧ ds.all Char.isDigit = true := by
  unfold classNameMatch at h
  split at h
  · exact absurd h (by simp)
  · split at h
    · simp only [Option.some.injEq, Prod.mk.injEq] at h
      obtain ⟨h1, _⟩ := h
      constructor
      · rw [← h1]
        intro hemp
        simp only [List.isEmpty_iff] at *
        simp_all
      · rw [← h1, List.all_eq_true]
        intro x hx
        exact List.mem_takeWhile_imp hx
    · exact absurd h (by simp)

/-!
# Claims

One theorem per claim of the specification audit, with counterexamples
(closed evaluations of the embedded code) where the claim as stated fails.
-/

/-- Claim C1 (counterexample): the ordinal parsers are *not* total.
`clean_video_sequence` on the label `"Clase 03- Introducción"` raises
`ValueError` (there is a match for `\bClase\b`, and `int("03- Introducción")`
fails) instead of returning `(3, "Introducción")`; `clean_module_sequence`
on `"Bienvenida"` raises `ValueError` (there is no match guard at all)
instead of falling back to `0`; and the class parser returns `(0, "")`
— not `(3, "Introducción")` on the quoted label, and not
`(0, "Bienvenida")` on a non-matching label. -/
theorem C1_counterexample :
    clean_video_sequence
        { href := none, videoNumHtml := some "Clase 03- Introducción",
          titleHtml := none }
      = .error (.valueError "03- Introducción")
    ∧ clean_module_sequence
        { seqSpanHtml := some "Bienvenida", h4Html := none,
          notCharged := false, aTags := [] }
      = .error (.valueError "Bienvenida")
    ∧ clean_class_sequence
        { href := none, labelHtml := some "Clase 03- Introducción",
          titleHtml := none } = .ok 0
    ∧ clean_class_type
        { href := none, labelHtml := some "Bienvenida", titleHtml := none }
      = .ok "" := by
  refine ⟨by decide, by decide, by decide, by decide⟩

/-- Claim C1 (amended): only the class-ordinal parser is total (given the
label cleans without error): it returns some sequence for every label,
`(0, "")` — an empty remainder, not the normalized label — when the
`^(\d+)-` pattern does not match, and the parsed pair when it does
(label `"03- Introducción"` → sequence `3`, remainder `"Introducción"`).
The video parser returns `0` when `Clase` is absent (`"Bienvenida"` → `0`)
but raises `ValueError` when the residue after deleting the marker is not
an integer literal; the module parser raises whenever its residue is not
an integer literal. -/
theorem C1_ordinal_parsers_amended :
    (∀ (a : ClassATag) (hs : String) (t : List Char),
        a.labelHtml = some hs → cleanTitleL hs.data = .ok t →
        (∃ n : Int, clean_class_sequence a = .ok n)
        ∧ (classNameMatch t = none →
            clean_class_sequence a = .ok 0 ∧ clean_class_type a = .ok ""))
    ∧ clean_class_sequence
        { href := none, labelHtml := some "03- Introducción",
          titleHtml := none } = .ok 3
    ∧ clean_class_type
        { href := none, labelHtml := some "03- Introducción",
          titleHtml := none } = .ok "Introducción"
    ∧ clean_class_sequence
        { href := none, labelHtml := some "Bienvenida", titleHtml := none }
      = .ok 0
    ∧ clean_video_sequence
        { href := none, videoNumHtml := some "Bienvenida", titleHtml := none }
      = .ok 0 := by
  refine ⟨?_, by decide, by decide, by decide, by decide⟩
  intro a hs t hl ht
  constructor
  · unfold clean_class_sequence
    simp only [hl, ht]
    cases hm : classNameMatch t with
    | none => exact ⟨0, by simp [hm]⟩
    | some p =>
      obtain ⟨ds, g2⟩ := p
      obtain ⟨hne, hdig⟩ := classNameMatch_some t ds g2 hm
      obtain ⟨n, hn⟩ := pyInt_digits ds hne hdig
      exact ⟨n, by simp [hm, hn]⟩
  · intro hnm
    constructor
    · unfold clean_class_sequence
      simp [hl, ht, hnm]
    · unfold clean_class_type
      simp [hl, ht, hnm]

/-- Witness for the amended C1: a concrete non-matching label parses to a
sequence without an exception. -/
theorem C1_ordinal_parsers_amended_witness :
    ∃ n : Int, clean_class_sequence
      { href := none, labelHtml := some "Hola mundo", titleHtml := none }
      = .ok n :=
  (C1_ordinal_parsers_amended.1
    { href := none, labelHtml := some "Hola mundo", titleHtml := none }
    "Hola mundo" "Hola mundo".data rfl (by decide)).1

/-- Claim C2 (counterexample): an item whose detail extraction fails with
`VideoError` and an item that exhausts the five download attempts both end
the course traversal with an *empty* error list — they are logged but never
appended, so the aggregated report does not list every failed item. -/
theorem C2_counterexample :
    courseTraverse
      { articleOk := fun _ _ _ => true,
        clientVideo := fun u =>
          if u = "https://codigofacilito.com/videos/v1"
          then .error (.videoError "extraction failed")
          else .ok { id := "9", url := u, m3u8_url := "m", title := "T",
                     media_type := none, description := none },
        dl := fun _ _ => false }
      "https://codigofacilito.com/cursos/c" 1
      [{ title := "S",
         videos_url :=
           [{ title := "V1", url := "https://codigofacilito.com/videos/v1" },
            { title := "V2", url := "https://codigofacilito.com/videos/v2" }] }]
      = .ok ([],
        [{ sectionTitle := "S", itemTitle := "V1",
           itemUrl := "https://codigofacilito.com/videos/v1",
           kind := .videoDetailFail },
         { sectionTitle := "S", itemTitle := "V2",
           itemUrl := "https://codigofacilito.com/videos/v2",
           kind := .dlFail 5 }]) := by
  decide

/-- Claim C2 (amended): only the course branch keeps an error list, and an
entry `{section, video_title, url}` is appended exactly when an embedded
article download fails or a video URL is rejected with `URLError`; items
failing detail extraction (`VideoError`) and items exhausting the retry
bound are only logged.  The traversal still visits every item (one outcome
per item), and the collected list is returned at the end.  The bootcamp
branch aggregates no error list at all. -/
theorem C2_error_report_amended :
    ∀ (st : CourseStubs) (courseUrl : String) (pfxS : Nat)
      (sections : List CourseSection) (es : List ErrEntry)
      (os : List ItemOutcome),
      courseTraverse st courseUrl pfxS sections = .ok (es, os) →
      es = os.filterMap errOfOutcome
      ∧ os.length = (sections.map (fun s => s.videos_url.length)).sum :=
  fun st cu p secs es os h => courseTraverse_spec st cu secs p es os h

/-- Witness for the amended C2 at a one-item course. -/
theorem C2_error_report_amended_witness :
    ([] : List ErrEntry)
      = ([{ sectionTitle := "S", itemTitle := "V",
            itemUrl := "https://codigofacilito.com/videos/v",
            kind := .dlDone 1 }] : List ItemOutcome).filterMap errOfOutcome
    ∧ ([{ sectionTitle := "S", itemTitle := "V",
          itemUrl := "https://codigofacilito.com/videos/v",
          kind := OutKind.dlDone 1 }] : List ItemOutcome).length
      = (([{ title := "S",
             videos_url := [{ title := "V",
                              url := "https://codigofacilito.com/videos/v" }] }]
          : List CourseSection).map (fun s => s.videos_url.length)).sum :=
  C2_error_report_amended
    { articleOk := fun _ _ _ => true,
      clientVideo := fun u =>
        .ok { id := "1", url := u, m3u8_url := "m", title := "t",
              media_type := none, description := none },
      dl := fun _ _ => true }
    "cu" 1
    [{ title := "S",
       videos_url := [{ title := "V",
                        url := "https://codigofacilito.com/videos/v" }] }]
    []
    [{ sectionTitle := "S", itemTitle := "V",
       itemUrl := "https://codigofacilito.com/videos/v",
       kind := .dlDone 1 }]
    (by decide)

/-- Claim C3: `_get_videos` reads the undefined attribute
`consts.CLASS_BOOTCAMP_NAME` in its title-filtering step, the resulting
`AttributeError` is swallowed by the catch-all handler, and the empty list
is returned for every class page with at least one hyperlink in its
collapsible body; consequently every `BootcampClass` collected by the
bootcamp tree walk has an empty video list. -/
theorem C3_bootcamp_videos_empty :
    (∀ (pg : VideoPage) (aTags : List VideoATag),
        pg.collapsible = some aTags → aTags ≠ [] → getVideos pg = [])
    ∧ (∀ (d : DictInfo) (pages : String → VideoPage) (as : List ClassATag)
        (cs : List BootcampClass) (ws : List FileWrite),
        getClassesLoop d pages as = .ok (cs, ws) →
        ∀ c ∈ cs, c.videos = []) := by
  constructor
  · intro pg _ _ _
    exact getVideos_nil pg
  · intro d pages as cs ws h c hc
    exact (getClassesLoop_ok_props d pages as cs ws h c hc).2

/-- Witness for C3 at a concrete page with one video hyperlink. -/
theorem C3_bootcamp_videos_empty_witness :
    getVideos
      { collapsible := some [{ href := some "/x",
                               videoNumHtml := some "Clase 1",
                               titleHtml := some "Hola" }] } = [] :=
  C3_bootcamp_videos_empty.1 _
    [{ href := some "/x", videoNumHtml := some "Clase 1",
       titleHtml := some "Hola" }] rfl (by decide)

/-- Claim C4 (counterexample): the bootcamp retry loop compares the
0-based `attempt` against `max_retries`, which is always true, so a
downloader that always fails produces five retry notices and *no* final
failure message — the exhaustion message is unreachable in this branch. -/
theorem C4_counterexample :
    retryBootcamp (fun _ => false)
      = (5, false, [DlLog.retryNotice, DlLog.retryNotice, DlLog.retryNotice,
                    DlLog.retryNotice, DlLog.retryNotice])
    ∧ DlLog.failureMax ∉ (retryBootcamp (fun _ => false)).2.2 := by
  refine ⟨by decide, by decide⟩

/-- Claim C4 (amended): both loops make at most five attempts; a stub that
fails the first four calls and succeeds on the fifth yields success with
`attemptsUsed = 5` in both branches, and an always-failing stub yields
failure with `attemptsUsed = 5` in both.  The course branch logs a retry
notice on each failure short of the bound and the failure-max message on
the fifth; the bootcamp branch logs the retry notice on every failure,
including the fifth, and never logs the failure-max message. -/
theorem C4_retry_bound_amended :
    (∀ dl : Nat → Bool, (retryCourse dl).1 ≤ 5 ∧ (retryBootcamp dl).1 ≤ 5)
    ∧ retryCourse (fun i => decide (i ≥ 5))
      = (5, true, [DlLog.retryNotice, DlLog.retryNotice, DlLog.retryNotice,
                   DlLog.retryNotice, DlLog.doneMsg])
    ∧ retryCourse (fun _ => false)
      = (5, false, [DlLog.retryNotice, DlLog.retryNotice, DlLog.retryNotice,
                    DlLog.retryNotice, DlLog.failureMax])
    ∧ retryBootcamp (fun i => decide (i ≥ 5))
      = (5, true, [DlLog.retryNotice, DlLog.retryNotice, DlLog.retryNotice,
                   DlLog.retryNotice, DlLog.doneMsg])
    ∧ retryBootcamp (fun _ => false)
      = (5, false, [DlLog.retryNotice, DlLog.retryNotice, DlLog.retryNotice,
                    DlLog.retryNotice, DlLog.retryNotice]) := by
  refine ⟨?_, by decide, by decide, by decide, by decide⟩
  intro dl
  constructor
  · exact retryCourseAux_fst_le dl (List.range' 1 MAX_RETRIES) (by decide)
  · exact retryBootcampAux_fst_le dl (List.range MAX_RETRIES) (by decide)

/-- Claim C5 (counterexample): a class link whose parsed label type is
`"Curso"` but which lacks the title paragraph takes the logging-only
branch of `_get_classes`: it is excluded from the class list but *no*
anomaly marker file is written. -/
theorem C5_counterexample :
    clean_class_type
      { href := some "/cursos/x", labelHtml := some "01- Curso",
        titleHtml := none } = .ok "Curso"
    ∧ getClassesLoop
        { bootcamp_name := "Bootcamp - B", module_sequence := 1,
          module_title := "M" }
        (fun _ => { collapsible := none })
        [{ href := some "/cursos/x", labelHtml := some "01- Curso",
           titleHtml := none }]
      = .ok ([], []) := by
  refine ⟨by decide, by decide⟩

/-- Claim C5 (amended): provided the link carries a title paragraph and an
`href`, a class whose parsed label type is `"Curso"` is never appended to
its parent module's class list and exactly one marker file is written at
`downloads/{bootcamp}/{NN. module}/{NN. class}.txt`. -/
theorem C5_curso_marker_amended :
    ∀ (d : DictInfo) (pages : String → VideoPage) (a : ClassATag)
      (rest : List ClassATag) (cseq : Int) (th ctitle href : String),
      clean_class_type a = .ok "Curso" →
      clean_class_sequence a = .ok cseq →
      a.titleHtml = some th →
      cleanTitle th = .ok ctitle →
      a.href = some href →
      ∀ (cs : List BootcampClass) (ws : List FileWrite),
        getClassesLoop d pages rest = .ok (cs, ws) →
        getClassesLoop d pages (a :: rest)
          = .ok (cs, errorClassFile d cseq ctitle (BASE_URL ++ href) :: ws)
        ∧ (errorClassFile d cseq ctitle (BASE_URL ++ href)).path
          = ("downloads/" ++ d.bootcamp_name ++ "/"
              ++ pad2 d.module_sequence ++ ". " ++ d.module_title ++ "/")
            ++ (pad2 cseq ++ ". " ++ ctitle) ++ ".txt" := by
  intro d pages a rest cseq th ctitle href h1 h2 h3 h4 h5 cs ws h6
  have hne : ¬("Curso" ≠ "Curso") := by simp
  constructor
  · unfold getClassesLoop
    simp only [h1, h2, h3, h4, h5, if_neg hne, h6]
  · rfl

/-- Witness for the amended C5 at a concrete `"Curso"`-typed link. -/
theorem C5_curso_marker_amended_witness :
    getClassesLoop
      { bootcamp_name := "Bootcamp - B", module_sequence := 2,
        module_title := "Mod" }
      (fun _ => { collapsible := none })
      [{ href := some "/cursos/x", labelHtml := some "01- Curso",
         titleHtml := some "Curso de python" }]
      = .ok ([], [errorClassFile
          { bootcamp_name := "Bootcamp - B", module_sequence := 2,
            module_title := "Mod" }
          1 "Curso de python" (BASE_URL ++ "/cursos/x")]) :=
  (C5_curso_marker_amended
    { bootcamp_name := "Bootcamp - B", module_sequence := 2,
      module_title := "Mod" }
    (fun _ => { collapsible := none })
    { href := some "/cursos/x", labelHtml := some "01- Curso",
      titleHtml := some "Curso de python" }
    [] 1 "Curso de python" "Curso de python" "/cursos/x"
    (by decide) (by decide) rfl (by decide) rfl [] [] rfl).1

/-- Claim C6 (counterexample): `get_video_detail_sync` checks only
`is_video_url`, so a URL the classifier tags as Article is rejected with
the invalid-URL error — the error is *not* raised "exactly when the
classifier does not tag the URL as Video/Article". -/
theorem C6_counterexample :
    is_article_url "https://codigofacilito.com/articulos/a" = true
    ∧ get_video_detail_sync "https://codigofacilito.com/articulos/a"
        { titleH1 := some "Titulo", videoIdAttr := some "11",
          courseIdAttr := some "22" }
      = .error (.urlError
          "[VIDEO] Invalid video URL: https://codigofacilito.com/articulos/a") := by
  refine ⟨by decide, by decide⟩

/-- Claim C6 (amended): the invalid-URL error is raised exactly when the
classifier does not tag the URL as *Video* (article URLs included); a
missing title locator or a failing title cleanup raises `VideoError`, as
does a missing `video_id`/`course_id` value; otherwise the returned media
item's stream locator is the constructed template
`https://video-storage.codigofacilito.com/hls/{course_id}/{video_id}/playlist.m3u8`,
never a scraped URL. -/
theorem C6_extract_video_amended :
    ∀ (u : String) (pg : VideoDetailPage),
      (is_video_url u = false →
        get_video_detail_sync u pg
          = .error (.urlError ("[VIDEO] Invalid video URL: " ++ u)))
      ∧ (is_video_url u = true → pg.titleH1 = none →
          get_video_detail_sync u pg
            = .error (.videoError ("[VIDEO] title not found: " ++ u)))
      ∧ (∀ t : String, is_video_url u = true → pg.titleH1 = some t →
          cleanTitle t = .error .indexError →
          get_video_detail_sync u pg
            = .error (.videoError ("[VIDEO] title not found: " ++ u)))
      ∧ (∀ t s : String, is_video_url u = true → pg.titleH1 = some t →
          cleanTitle t = .ok s →
          (pg.videoIdAttr = none ∨ pg.courseIdAttr = none) →
          get_video_detail_sync u pg
            = .error (.videoError ("[VIDEO] id not found: " ++ u)))
      ∧ (∀ (t s vid cid : String), is_video_url u = true →
          pg.titleH1 = some t → cleanTitle t = .ok s →
          pg.videoIdAttr = some vid → pg.courseIdAttr = some cid →
          ∃ v : Video, get_video_detail_sync u pg = .ok v
            ∧ v.m3u8_url = "https://video-storage.codigofacilito.com/hls/"
                ++ cid ++ "/" ++ vid ++ "/playlist.m3u8"
            ∧ v.title = s ∧ v.id = vid) := by
  intro u pg
  refine ⟨?_, ?_, ?_, ?_, ?_⟩
  · intro h
    simp [get_video_detail_sync, h]
  · intro hv ht
    simp [get_video_detail_sync, hv, ht]
  · intro t hv ht hcl
    simp [get_video_detail_sync, hv, ht, hcl]
  · intro t s hv ht hcl hids
    rcases hids with hid | hid
    · simp [get_video_detail_sync, hv, ht, hcl, hid]
    · cases hva : pg.videoIdAttr with
      | none => simp [get_video_detail_sync, hv, ht, hcl, hva]
      | some vid => simp [get_video_detail_sync, hv, ht, hcl, hva, hid]
  · intro t s vid cid hv ht hcl hvid hcid
    simp only [get_video_detail_sync, hv, ht, hcl, hvid, hcid,
      Bool.not_true, Bool.false_eq_true, if_false]
    exact ⟨_, rfl, rfl, rfl, rfl⟩

/-- Witness for the amended C6: a fully populated video page yields the
constructed m3u8 locator. -/
theorem C6_extract_video_amended_witness :
    ∃ v : Video,
      get_video_detail_sync "https://codigofacilito.com/videos/x"
        { titleH1 := some "Hola", videoIdAttr := some "11",
          courseIdAttr := some "22" } = .ok v
      ∧ v.m3u8_url
        = "https://video-storage.codigofacilito.com/hls/"
            ++ "22" ++ "/" ++ "11" ++ "/playlist.m3u8"
      ∧ v.title = "Hola" ∧ v.id = "11" :=
  (C6_extract_video_amended "https://codigofacilito.com/videos/x"
    { titleH1 := some "Hola", videoIdAttr := some "11",
      courseIdAttr := some "22" }).2.2.2.2
    "Hola" "Hola" "11" "22" (by decide) rfl (by decide) rfl rfl

/-- Claim C7: URL classification is a pure function of the string — each
kind pattern is matched anchored at the start, at most one of the four
predicates holds for any string, and a string matching none of them is
classified `Invalid`. -/
theorem C7_url_classifier_pure :
    ∀ u : String,
      (is_article_url u).toNat + (is_video_url u).toNat
        + (is_course_url u).toNat + (is_bootcamp_url u).toNat ≤ 1
      ∧ (classifyUrl u = ContentKind.invalid ↔
          is_article_url u = false ∧ is_video_url u = false
          ∧ is_course_url u = false ∧ is_bootcamp_url u = false) := by
  intro u
  have hav : ¬(is_article_url u = true ∧ is_video_url u = true) := fun ⟨x, y⟩ =>
    urlPattern_exclusive "articulos/" "videos/" 'a' 'v'
      "rticulos/".data "ideos/".data (by decide) (by decide) (by decide)
      u.data x y
  have hac : ¬(is_article_url u = true ∧ is_course_url u = true) := fun ⟨x, y⟩ =>
    urlPattern_exclusive "articulos/" "cursos/" 'a' 'c'
      "rticulos/".data "ursos/".data (by decide) (by decide) (by decide)
      u.data x y
  have hab : ¬(is_article_url u = true ∧ is_bootcamp_url u = true) := fun ⟨x, y⟩ =>
    urlPattern_exclusive "articulos/" "programas/" 'a' 'p'
      "rticulos/".data "rogramas/".data (by decide) (by decide) (by decide)
      u.data x y
  have hvc : ¬(is_video_url u = true ∧ is_course_url u = true) := fun ⟨x, y⟩ =>
    urlPattern_exclusive "videos/" "cursos/" 'v' 'c'
      "ideos/".data "ursos/".data (by decide) (by decide) (by decide)
      u.data x y
  have hvb : ¬(is_video_url u = true ∧ is_bootcamp_url u = true) := fun ⟨x, y⟩ =>
    urlPattern_exclusive "videos/" "programas/" 'v' 'p'
      "ideos/".data "rogramas/".data (by decide) (by decide) (by decide)
      u.data x y
  have hcb : ¬(is_course_url u = true ∧ is_bootcamp_url u = true) := fun ⟨x, y⟩ =>
    urlPattern_exclusive "cursos/" "programas/" 'c' 'p'
      "ursos/".data "rogramas/".data (by decide) (by decide) (by decide)
      u.data x y
  constructor
  · by_cases ha : is_article_url u = true
    · have hv : is_video_url u = false := by
        cases hvv : is_video_url u
        · rfl
        · exact absurd ⟨ha, hvv⟩ hav
      have hc : is_course_url u = false := by
        cases hcc : is_course_url u
        · rfl
        · exact absurd ⟨ha, hcc⟩ hac
      have hb : is_bootcamp_url u = false := by
        cases hbb : is_bootcamp_url u
        · rfl
        · exact absurd ⟨ha, hbb⟩ hab
      rw [ha, hv, hc, hb]
      decide
    · rw [Bool.not_eq_true] at ha
      rw [ha]
      by_cases hv : is_video_url u = true
      · have hc : is_course_url u = false := by
          cases hcc : is_course_url u
          · rfl
          · exact absurd ⟨hv, hcc⟩ hvc
        have hb : is_bootcamp_url u = false := by
          cases hbb : is_bootcamp_url u
          · rfl
          · exact absurd ⟨hv, hbb⟩ hvb
        rw [hv, hc, hb]
        decide
      · rw [Bool.not_eq_true] at hv
        rw [hv]
        by_cases hc : is_course_url u = true
        · have hb : is_bootcamp_url u = false := by
            cases hbb : is_bootcamp_url u
            · rfl
            · exact absurd ⟨hc, hbb⟩ hcb
          rw [hc, hb]
          decide
        · rw [Bool.not_eq_true] at hc
          rw [hc]
          cases hb : is_bootcamp_url u <;> decide
  · constructor
    · intro hinv
      unfold classifyUrl at hinv
      by_cases h1 : is_article_url u = true
      · rw [if_pos h1] at hinv
        exact absurd hinv (by decide)
      · rw [if_neg h1] at hinv
        by_cases h2 : is_video_url u = true
        · rw [if_pos h2] at hinv
          exact absurd hinv (by decide)
        · rw [if_neg h2] at hinv
          by_cases h3 : is_course_url u = true
          · rw [if_pos h3] at hinv
            exact absurd hinv (by decide)
          · rw [if_neg h3] at hinv
            by_cases h4 : is_bootcamp_url u = true
            · rw [if_pos h4] at hinv
              exact absurd hinv (by decide)
            · rw [Bool.not_eq_true] at h1 h2 h3 h4
              exact ⟨h1, h2, h3, h4⟩
    · rintro ⟨h1, h2, h3, h4⟩
      unfold classifyUrl
      simp [h1, h2, h3, h4]

/-- Claim C8 (counterexample): the module sequence is parsed *before* the
"not charged" marker check, so a marked module whose sequence span is not
an integer label makes the whole walk raise `ValueError` instead of
emitting an empty module. -/
theorem C8_counterexample :
    getModulesLoop "Bootcamp - X" (fun _ => { collapsible := none })
      [{ seqSpanHtml := some "Bienvenida", h4Html := none,
         notCharged := true, aTags := [] }]
      = .error (.valueError "Bienvenida") := by
  decide

/-- Claim C8 (amended): provided its title and sequence labels parse
without an exception, every module container carrying the "not charged"
marker yields a `BootcampModule` with the parsed sequence and title and an
empty class list, and the walk continues with the remaining modules. -/
theorem C8_not_charged_amended :
    ∀ (bn : String) (pages : String → VideoPage) (li : LiTag)
      (rest : List LiTag) (n : Int) (t : String),
      li.notCharged = true →
      clean_module_title li = .ok t →
      clean_module_sequence li = .ok n →
      ∀ (ms : List BootcampModule) (ws : List FileWrite),
        getModulesLoop bn pages rest = .ok (ms, ws) →
        getModulesLoop bn pages (li :: rest)
          = .ok ({ sequence := n, title := t, classes := [] } :: ms, ws) := by
  intro bn pages li rest n t hnc ht hn ms ws hrest
  unfold getModulesLoop
  simp [ht, hn, hnc, hrest]

/-- Witness for the amended C8 at a concrete marked module. -/
theorem C8_not_charged_amended_witness :
    getModulesLoop "B" (fun _ => { collapsible := none })
      [{ seqSpanHtml := some "Módulo 2", h4Html := some "Intro",
         notCharged := true, aTags := [] }]
      = .ok ([{ sequence := 2, title := "Intro", classes := [] }], []) :=
  C8_not_charged_amended "B" (fun _ => { collapsible := none })
    { seqSpanHtml := some "Módulo 2", h4Html := some "Intro",
      notCharged := true, aTags := [] }
    [] 2 "Intro" rfl (by decide) (by decide) [] [] rfl

/-- Claim C9 (counterexample): `_get_sections` stores section and video
titles as raw `inner_text` — a title containing a newline (and a markup
symbol) is stored verbatim in the course tree, so raw extracted text does
leave the Tree Builder boundary. -/
theorem C9_counterexample :
    getSections [{ h4Text := some "hello\nworld(", aTags := [] }]
      = [{ title := "hello\nworld(", videos_url := [] }]
    ∧ '\n' ∈ ("hello\nworld(" : String).data
    ∧ getSections [{ h4Text := some "T",
                     aTags := [{ titlePText := some "raw\ntitle",
                                 href := some "/v" }] }]
      = [{ title := "T",
           videos_url := [{ title := "raw\ntitle",
                            url := "https://codigofacilito.com/v" }] }]
    ∧ '\n' ∈ ("raw\ntitle" : String).data := by
  refine ⟨by decide, by decide, by decide, by decide⟩

/-- Claim C9 (amended): the bootcamp walk does store only normalized
titles — every module and class title a successful `_get_modules` walk
collects satisfies the post-normalization invariant (no newline, no markup
symbol, trimmed, first character upper-case-stable), and bootcamp video
lists are empty; course section and video-ref titles, in contrast, are
stored raw (see the counterexample). -/
theorem C9_bootcamp_titles_amended :
    ∀ (bn : String) (pages : String → VideoPage) (lis : List LiTag)
      (ms : List BootcampModule) (ws : List FileWrite),
      getModulesLoop bn pages lis = .ok (ms, ws) →
      ∀ m ∈ ms, normalizedB m.title.data = true
        ∧ ∀ c ∈ m.classes, normalizedB c.title.data = true ∧ c.videos = [] :=
  fun bn pages lis ms ws h => getModulesLoop_ok_props bn pages lis ms ws h

/-- Witness for the amended C9 at a concrete one-module walk. -/
theorem C9_bootcamp_titles_amended_witness :
    normalizedB ("Intro" : String).data = true :=
  (C9_bootcamp_titles_amended "B" (fun _ => { collapsible := none })
    [{ seqSpanHtml := some "Módulo 1", h4Html := some "Intro",
       notCharged := true, aTags := [] }]
    [{ sequence := 1, title := "Intro", classes := [] }] [] (by decide)
    { sequence := 1, title := "Intro", classes := [] } (by decide)).1

/-- Claim C10: normalization is idempotent — composing `clean_title` with
itself (propagating a raised exception) equals a single application: a
successful output is a fixed point, and a failing input fails identically. -/
theorem C10_normalize_idempotent :
    ∀ s : String, Except.bind (cleanTitle s) cleanTitle = cleanTitle s := by
  intro s
  cases h : cleanTitleL s.data with
  | error e =>
    have h1 : cleanTitle s = .error e := by
      unfold cleanTitle
      rw [h]
    rw [h1]
    rfl
  | ok l =>
    have h1 : cleanTitle s = .ok (String.mk l) := by
      unfold cleanTitle
      rw [h]
    have hn : normalizedB l = true := cleanTitleL_ok_normalized s.data l h
    have hne : l ≠ [] := cleanTitleL_ok_ne_nil s.data l h
    have hfix : cleanTitleL l = .ok l := cleanTitleL_fix l hn hne
    have h2 : cleanTitle (String.mk l) = .ok (String.mk l) := by
      unfold cleanTitle
      rw [show (String.mk l).data = l from rfl, hfix]
    rw [h1]
    show cleanTitle (String.mk l) = .ok (String.mk l)
    exact h2

end Facilito

